import Mathlib

/-!
Shallow embedding of the incremental extraction engine of the `etl` repository:
`src/extract/extractor.py` (class `QQCatalystExtractor`) and
`src/extract/api_client.py` (class `QQCatalystClient`).

Modelling conventions:
* A raw API item (a JSON object) is an association list from field names to
  string values; `getField` is Python `dict.get` and `truthy` is Python
  truthiness of an optional string (absent and the empty string are falsy).
* The SQLAlchemy session is a pair of committed rows and pending rows for the
  one staging table the extraction targets; `bulk_save_objects` stages rows,
  `commit` makes them durable, `rollback` discards pending rows.
* Fallible external effects are parameters: `scanOk` is whether the step-1
  `SELECT source_id` scan succeeds (the code swallows its exception and
  proceeds with an empty set), and `flushOk k` is whether the k-th bulk
  insert commits.
* The page stream consumed by `extract_resource` is the finite list of
  response envelopes the paginated fetch produced for the given filters; an
  unchanged upstream yields the same list.
-/

/-! ## Items and Python-style field access -/

abbrev Item := List (String × String)

/-- Python `dict.get key` on a JSON object. -/
def getField (item : Item) (key : String) : Option String :=
  (item.find? (fun p => p.1 == key)).map (fun p => p.2)

/-- Python truthiness of `dict.get key`: `None` and `""` are falsy. -/
def truthy : Option String → Bool
  | none => false
  | some s => !(s == "")

/-! ## Records, session, resource registry -/

/-- A staging row as built by the extractor:
`model_class(source_id=entity_id, raw_data=item, etl_batch_id=self.batch_id)`. -/
structure RawRecord where
  source_id : String
  raw_data : Item
  etl_batch_id : String
deriving Repr, DecidableEq

/-- The visible state of the SQLAlchemy session for the one staging table the
extraction writes: rows already committed and rows staged but not committed. -/
structure DbSession where
  committed : List RawRecord
  pending : List RawRecord
deriving Repr, DecidableEq

def sourceIds (rows : List RawRecord) : List String :=
  rows.map (fun r => r.source_id)

/-- `RESOURCE_MODEL_MAP` of `QQCatalystExtractor`: resource name to staging
table name. -/
def RESOURCE_MODEL_MAP : List (String × String) :=
  [("contacts", "raw_contacts"), ("policies", "raw_policies")]

/-- `RESOURCE_ENDPOINT_MAP` of `QQCatalystExtractor`. -/
def RESOURCE_ENDPOINT_MAP : List (String × String) :=
  [("contacts", "Contacts/LastModifiedCreated"),
   ("policies", "Policies/LastModifiedCreated")]

/-! ## Validation (`QQCatalystExtractor._validate_record`) -/

/-- The `id_field_map` local of `_validate_record`, with its
`.get(resource, ["EntityID"])` default. -/
def idFieldMap (resource : String) : List String :=
  if resource == "contacts" then ["EntityID", "ContactId"]
  else if resource == "policies" then ["EntityID", "PolicyId"]
  else ["EntityID"]

/-- `QQCatalystExtractor._validate_record`: list of validation error
messages, empty when the record is valid. -/
def validate_record (record : Item) (resource : String) : List String :=
  let validIdFields := idFieldMap resource
  let idErrors :=
    if validIdFields.any (fun f => truthy (getField record f)) then []
    else ["Missing required ID field. Expected one of: " ++
          String.intercalate ", " validIdFields]
  let policyErrors :=
    if resource == "policies" then
      (if truthy (getField record "PolicyNumber") then []
       else ["Policy must have a policy number"]) ++
      (if truthy (getField record "Status") then []
       else ["Policy must have a status"])
    else []
  idErrors ++ policyErrors

/-- Identifier resolution at the top of the per-item loop of
`extract_resource`: `PolicyId` is used in place of a missing or falsy
`EntityID` only for the `policies` resource; otherwise
`str(item.get("EntityID", ""))`. -/
def resolveEntityId (resource : String) (item : Item) : String :=
  if resource == "policies" && !truthy (getField item "EntityID")
      && truthy (getField item "PolicyId") then
    (getField item "PolicyId").getD ""
  else
    (getField item "EntityID").getD ""

/-! ## Response envelopes -/

/-- Fields of a JSON-object response envelope that the client and extractor
read: items under `Data` or `items`, and the pagination metadata. `none`
means the key is absent. -/
structure DictPage where
  Data : Option (List Item)
  items : Option (List Item)
  TotalItems : Option Nat
  PageNumber : Option Nat
  PagesTotal : Option Nat
deriving Repr, DecidableEq

/-- One API response: a JSON object, a bare JSON list, or any other JSON
value (both the client and the extractor branch on `isinstance`). -/
inductive ApiData where
  | dict (d : DictPage)
  | list (l : List Item)
  | other
deriving Repr, DecidableEq

/-- The extractor's page handling: `page.get("Data", [])` for a dict,
the page itself for a list, `[]` otherwise. The `items` key is not read
by the extractor. -/
def extractPageItems : ApiData → List Item
  | .dict d => d.Data.getD []
  | .list l => l
  | .other => []

/-! ## Flush (`QQCatalystExtractor._flush_buffer`) -/

/-- The diagnostic context `_flush_buffer` logs and re-raises with on
failure: the `source_id` of every record in the failed buffer. -/
structure FlushError where
  recordIds : List String
deriving Repr, DecidableEq

def flushRecordIds (buffer : List RawRecord) : List String :=
  buffer.map (fun r => r.source_id)

/-- `QQCatalystExtractor._flush_buffer`: `bulk_save_objects` stages the
buffer, then `commit` either commits everything or raises, in which case
`rollback` discards the pending rows and the wrapped exception (carrying the
per-record identifiers) is re-raised. `commitOk` is whether the bulk insert
succeeds. -/
def flush_buffer (commitOk : Bool) (s : DbSession) (buffer : List RawRecord) :
    DbSession × Option FlushError :=
  let staged : DbSession := { s with pending := s.pending ++ buffer }
  if commitOk then
    ({ committed := staged.committed ++ staged.pending, pending := [] }, none)
  else
    ({ staged with pending := [] }, some ⟨flushRecordIds buffer⟩)

/-! ## The extraction run (`QQCatalystExtractor.extract_resource`) -/

/-- Run-constant context of one `extract_resource` call. `flushOk k` is the
outcome of the k-th flush this run (0-indexed). -/
structure ExCtx where
  resource : String
  batchSize : Nat
  batchId : String
  flushOk : Nat → Bool
  testMode : Bool
  limit : Option Nat

/-- Mutable state of one `extract_resource` call: the session, the step-1
snapshot of existing identifiers, the in-run dedup set, the batch buffer,
the counters of the `stats` dict, the per-flush sizes (the flush log), the
in-flight exception of a failed flush, and the test-mode collector with its
early-return flag. -/
structure ExState where
  session : DbSession
  existing : List String
  processedIds : List String
  buffer : List RawRecord
  recordsProcessed : Nat
  validationErrors : Nat
  stTotal : Nat
  stSkipped : Nat
  stAlready : Nat
  stAdded : Nat
  flushSizes : List Nat
  flushFailed : Option FlushError
  testRecords : List Item
  earlyReturn : Bool
deriving Repr, DecidableEq

/-- Whether the run has stopped early: a flush raised (exception propagates)
or the test-mode limit was reached (`return test_records`). -/
def ExState.halted (st : ExState) : Bool :=
  st.flushFailed.isSome || st.earlyReturn

/-- One call of `self._flush_buffer(buffer)` from inside `extract_resource`
(in the loop the caller then clears the buffer; on success the buffer is
empty here). The size of every attempted flush is logged. -/
def applyFlush (ctx : ExCtx) (st : ExState) : ExState :=
  let res := flush_buffer (ctx.flushOk st.flushSizes.length) st.session st.buffer
  match res.2 with
  | none =>
      { st with
        session := res.1, buffer := [],
        flushSizes := st.flushSizes ++ [st.buffer.length] }
  | some e =>
      { st with
        session := res.1,
        flushSizes := st.flushSizes ++ [st.buffer.length],
        flushFailed := some e }

/-- The write branch of the item loop: build the `RawRecord`, append it to
the buffer, bump the counters, flush when the buffer has reached the batch
size. -/
def bufferRecord (ctx : ExCtx) (st : ExState) (entityId : String)
    (item : Item) : ExState :=
  let raw : RawRecord :=
    { source_id := entityId, raw_data := item, etl_batch_id := ctx.batchId }
  let st :=
    { st with
      buffer := st.buffer ++ [raw],
      stAdded := st.stAdded + 1,
      recordsProcessed := st.recordsProcessed + 1 }
  if decide (ctx.batchSize ≤ st.buffer.length) then applyFlush ctx st else st

/-- The test-mode branch of the item loop: collect the record and return
early once the limit (when truthy) is reached. -/
def collectTest (ctx : ExCtx) (st : ExState) (item : Item) : ExState :=
  let tr := st.testRecords ++ [item]
  { st with
    testRecords := tr,
    earlyReturn :=
      match ctx.limit with
      | some l => !(l == 0) && decide (l ≤ tr.length)
      | none => false }

/-- The item loop after the in-run dedup set has been extended with a fresh
identifier: the durable-set check, then validation, then the test-mode or
write branch. -/
def procKnownNew (ctx : ExCtx) (st : ExState) (entityId : String)
    (item : Item) : ExState :=
  if st.existing.contains entityId then
    { st with stAlready := st.stAlready + 1 }
  else if !(validate_record item ctx.resource).isEmpty then
    { st with
      validationErrors := st.validationErrors + 1,
      stSkipped := st.stSkipped + 1 }
  else if ctx.testMode then collectTest ctx st item
  else bufferRecord ctx st entityId item

/-- The body of the per-item loop of `extract_resource`: identifier
resolution, the unidentifiable drop, the in-run dedup check (which comes
before the durable check and before validation), then the rest. -/
def procItem (ctx : ExCtx) (st : ExState) (item : Item) : ExState :=
  if st.halted then st else
  let entityId := resolveEntityId ctx.resource item
  if entityId == "" then
    { st with stSkipped := st.stSkipped + 1 }
  else if st.processedIds.contains entityId then
    st
  else
    procKnownNew ctx { st with processedIds := st.processedIds ++ [entityId] }
      entityId item

/-- The body of the per-page loop of `extract_resource`: pull the items out
of the envelope, bump the `total_items` stat, then run the item loop. -/
def procPage (ctx : ExCtx) (st : ExState) (page : ApiData) : ExState :=
  if st.halted then st else
  let items := extractPageItems page
  let st := { st with stTotal := st.stTotal + items.length }
  items.foldl (procItem ctx) st

/-- Result of an `extract_resource` call: the returned count, the returned
test-mode record list, the `ValueError` for an unregistered resource, or a
propagated flush exception. -/
inductive ExtractResult where
  | count (n : Nat)
  | testRecords (l : List Item)
  | errUnsupported (resource : String)
  | errFlush (e : FlushError)
deriving Repr, DecidableEq

/-- Initial state of a run: the step-1 snapshot and empty everything else. -/
def initExState (existing : List String) (db0 : DbSession) : ExState :=
  { session := db0, existing := existing, processedIds := [], buffer := [],
    recordsProcessed := 0, validationErrors := 0, stTotal := 0,
    stSkipped := 0, stAlready := 0, stAdded := 0, flushSizes := [],
    flushFailed := none, testRecords := [], earlyReturn := false }

/-- The code after the page loop of `extract_resource`: a flush exception
raised inside the loop propagates; a test-mode early return returns the
collected records; otherwise any non-empty buffer is flushed (an exception
propagating) and the count or the test-mode records are returned. -/
def extractTail (ctx : ExCtx) (st1 : ExState) : ExtractResult × ExState :=
  match st1.flushFailed with
  | some e => (.errFlush e, st1)
  | none =>
    if st1.earlyReturn then (.testRecords st1.testRecords, st1)
    else if !ctx.testMode && !st1.buffer.isEmpty then
      let st2 := applyFlush ctx st1
      match st2.flushFailed with
      | some e => (.errFlush e, st2)
      | none => (.count st2.recordsProcessed, st2)
    else if ctx.testMode then (.testRecords st1.testRecords, st1)
    else (.count st1.recordsProcessed, st1)

/-- `QQCatalystExtractor.extract_resource` over a given page stream.
`scanOk` is whether the step-1 full-table scan of `source_id` succeeds; on
its exception the code logs and proceeds with an empty set. In test mode the
scan is skipped. The page loop runs, then `extractTail` finishes the call. -/
def extract_resource (ctx : ExCtx) (scanOk : Bool) (pages : List ApiData)
    (db0 : DbSession) : ExtractResult × ExState :=
  if !(RESOURCE_MODEL_MAP.map (fun p => p.1)).contains ctx.resource then
    (.errUnsupported ctx.resource, initExState [] db0)
  else
    let existing :=
      if !ctx.testMode && scanOk then sourceIds db0.committed else []
    extractTail ctx (pages.foldl (procPage ctx) (initExState existing db0))

/-! ## Token manager (`QQCatalystClient._refresh_token` / `_get_new_token`)

The wall clock is a parameter `now` and the token endpoint is modelled as
always returning a fixed fresh token with a fixed `expires_in` (the claims
under study concern runs in which the token endpoint is reachable). -/

structure TokState where
  accessToken : Option String
  expiresAt : Option Int
deriving Repr, DecidableEq

/-- Client state observable across one `get_resource` call: the held token
plus counters of resource GET requests issued and of token-endpoint fetches
performed. -/
structure ClientRun where
  tok : TokState
  nRequests : Nat
  nTokenFetches : Nat
deriving Repr, DecidableEq

/-- The expiry test of `_refresh_token`:
`not token or not expires_at or now >= expires_at - 5 minutes`. -/
def needsRefresh (now : Int) (t : TokState) : Bool :=
  !truthy t.accessToken ||
    (match t.expiresAt with
     | some e => decide (now ≥ e - 300)
     | none => true)

/-- `QQCatalystClient._refresh_token`: fetch a new token only when the
held one is absent or within the 5-minute margin of its locally tracked
expiry; otherwise do nothing. -/
def refresh_token (now : Int) (newTok : String) (expiresIn : Int)
    (c : ClientRun) : ClientRun :=
  if needsRefresh now c.tok then
    { c with
      tok := { accessToken := some newTok, expiresAt := some (now + expiresIn) },
      nTokenFetches := c.nTokenFetches + 1 }
  else c

/-! ## `QQCatalystClient.get_resource` with its retry decorator -/

/-- One upstream answer to a resource GET: success with a body, an HTTP
error status (`raise_for_status` raises on it), or a network-level failure. -/
inductive HttpResp where
  | ok (d : ApiData)
  | err (code : Nat)
  | netFail
deriving Repr, DecidableEq

/-- Outcome of one `get_resource` call or attempt: the parsed body, a
propagated `HTTPStatusError`, or a propagated network exception. -/
inductive AttemptOut where
  | success (d : ApiData)
  | httpErr (code : Nat)
  | netErr
deriving Repr, DecidableEq

/-- Network context of one call: the wall clock, what the token endpoint
would return, and the upstream's answer to the n-th GET issued. -/
structure NetCtx where
  now : Int
  newToken : String
  expiresIn : Int
  upstream : Nat → HttpResp

/-- Issue one GET against the upstream. -/
def doGet (net : NetCtx) (c : ClientRun) : HttpResp × ClientRun :=
  (net.upstream c.nRequests, { c with nRequests := c.nRequests + 1 })

def is401 : HttpResp → Bool
  | .err code => code == 401
  | _ => false

/-- One attempt of the body of `get_resource`: `_get_headers` (which calls
the conditional `_refresh_token`), the GET, the in-line 401 handler (one
more conditional `_refresh_token`, then a second GET whose `_get_headers`
refreshes conditionally again), then `raise_for_status`. Every exception
is re-raised by the `except` clauses. -/
def get_resource_attempt (net : NetCtx) (c : ClientRun) :
    AttemptOut × ClientRun :=
  let c1 := refresh_token net.now net.newToken net.expiresIn c
  let r1 := doGet net c1
  match r1.1 with
  | .netFail => (.netErr, r1.2)
  | first =>
    let r2 :=
      if is401 first then
        let cA := refresh_token net.now net.newToken net.expiresIn r1.2
        let cB := refresh_token net.now net.newToken net.expiresIn cA
        doGet net cB
      else (first, r1.2)
    match r2.1 with
    | .ok d => (.success d, r2.2)
    | .err code => (.httpErr code, r2.2)
    | .netFail => (.netErr, r2.2)

/-- The `tenacity` decorator on `get_resource`:
`retry(stop=stop_after_attempt(3), wait=wait_exponential(...), reraise=True)`
retries the whole body on any exception and re-raises the last one. -/
def get_resource_retry (net : NetCtx) : Nat → ClientRun → AttemptOut × ClientRun
  | 0, c => (.netErr, c)
  | k + 1, c =>
    let r := get_resource_attempt net c
    match r.1 with
    | .success d => (.success d, r.2)
    | e =>
      match k with
      | 0 => (e, r.2)
      | _ + 1 => get_resource_retry net k r.2

/-- `QQCatalystClient.get_resource`: the decorated call, 3 attempts. -/
def get_resource (net : NetCtx) (c : ClientRun) : AttemptOut × ClientRun :=
  get_resource_retry net 3 c

/-! ## Request shaping and pagination (`QQCatalystClient.get_paginated_resource`) -/

/-- Query parameters of one page request. `none` means the key is not sent. -/
structure PageParams where
  pageNumber : Nat
  pageSize : Nat
  startDate : Option String
  endDate : Option String
  lastModifiedStart : Option String
  lastModifiedEnd : Option String
deriving Repr, DecidableEq

/-- Whether `pat` is a leading run of `s`. -/
def charsStartWith : List Char → List Char → Bool
  | [], _ => true
  | _ :: _, [] => false
  | p :: ps, c :: cs => (p == c) && charsStartWith ps cs

/-- Whether `pat` occurs contiguously inside `s`. -/
def charsContain (pat : List Char) : List Char → Bool
  | [] => pat.isEmpty
  | c :: cs => charsStartWith pat (c :: cs) || charsContain pat cs

/-- Python `"LastModifiedCreated" in resource`. -/
def containsLMC (resource : String) : Bool :=
  charsContain "LastModifiedCreated".toList resource.toList

/-- Python `a or b` for an optional string versus a default. -/
def pyOr (a : Option String) (b : String) : String :=
  match a with
  | some s => if s == "" then b else s
  | none => b

/-- The `params` dict built at the top of the pagination loop: always
`pageNumber` and `pageSize`; for a `LastModifiedCreated` endpoint and a
truthy start bound, `startDate` plus `endDate` defaulted to the current
time; for other endpoints, `lastModifiedStart` and `lastModifiedEnd` each
sent only when truthy. -/
def build_page_params (resource : String) (page pageSize : Nat)
    (lmStart lmEnd : Option String) (nowIso : String) : PageParams :=
  if containsLMC resource then
    if truthy lmStart then
      { pageNumber := page, pageSize := pageSize,
        startDate := lmStart, endDate := some (pyOr lmEnd nowIso),
        lastModifiedStart := none, lastModifiedEnd := none }
    else
      { pageNumber := page, pageSize := pageSize,
        startDate := none, endDate := none,
        lastModifiedStart := none, lastModifiedEnd := none }
  else
    { pageNumber := page, pageSize := pageSize,
      startDate := none, endDate := none,
      lastModifiedStart := if truthy lmStart then lmStart else none,
      lastModifiedEnd := if truthy lmEnd then lmEnd else none }

/-- The `has_data` computation of the pagination loop. -/
def hasData : ApiData → Bool
  | .dict d =>
      (match d.Data with | some l => !l.isEmpty | none => false) ||
      (match d.items with | some l => !l.isEmpty | none => false)
  | .list l => !l.isEmpty
  | .other => false

/-- The second disjunct of the break test: a dict response whose
`TotalItems` defaults to 0 once a total was already recorded. -/
def totalItemsZero (recorded : Option Nat) : ApiData → Bool
  | .dict d => recorded.isSome && (d.TotalItems.getD 0 == 0)
  | _ => false

/-- The last-page test: truthy `PageNumber` and `PagesTotal` with
`PageNumber >= PagesTotal`. -/
def lastPageReached : ApiData → Bool
  | .dict d =>
      (match d.PageNumber with | some n => !(n == 0) | none => false) &&
      (match d.PagesTotal with | some n => !(n == 0) | none => false) &&
      decide (d.PagesTotal.getD 0 ≤ d.PageNumber.getD 0)
  | _ => false

/-- Run-constant context of one `get_paginated_resource` call. `fetch` maps
the built query parameters to the upstream's (successful) response body for
that page; failure propagation inside a fetch is `get_resource`'s concern,
modelled separately above. -/
structure PgCtx where
  resource : String
  lmStart : Option String
  lmEnd : Option String
  nowIso : String
  pageSize : Nat
  fetch : PageParams → ApiData

/-- State of the pagination loop, with the logs of requested parameter sets
and yielded pages. `terminated` records that a `break` was reached. -/
structure PgState where
  page : Nat
  totalItems : Option Nat
  requested : List PageParams
  yielded : List ApiData
  terminated : Bool

/-- The `total_items` recording step of the pagination loop: a dict
response with a `TotalItems` key sets the loop's `total_items` once. -/
def pgRecordTotal (st : PgState) (data : ApiData) : PgState :=
  match data with
  | .dict d =>
      if st.totalItems.isNone && d.TotalItems.isSome then
        { st with totalItems := d.TotalItems }
      else st
  | _ => st

/-- One iteration of the `while True` loop of `get_paginated_resource`. -/
def pg_step (ctx : PgCtx) (st : PgState) : PgState :=
  if st.terminated then st else
  let params := build_page_params ctx.resource st.page ctx.pageSize
      ctx.lmStart ctx.lmEnd ctx.nowIso
  let data := ctx.fetch params
  let st1 := { st with requested := st.requested ++ [params] }
  if !hasData data || totalItemsZero st1.totalItems data then
    { st1 with terminated := true }
  else
    let st2 := pgRecordTotal st1 data
    let st3 := { st2 with yielded := st2.yielded ++ [data] }
    if lastPageReached data then { st3 with terminated := true }
    else { st3 with page := st3.page + 1 }

def pgInit : PgState :=
  { page := 1, totalItems := none, requested := [], yielded := [],
    terminated := false }

/-- `fuel` iterations of the pagination loop from the start of a fresh
call (`page = 1`, `total_items = None`). A run of the generator to
exhaustion is a run in which `terminated` becomes true; a generator that
is `terminated` after no finite number of iterations never finishes. -/
def get_paginated_resource (ctx : PgCtx) : Nat → PgState
  | 0 => pgInit
  | fuel + 1 => pg_step ctx (get_paginated_resource ctx fuel)

/-! ## Structural lemmas about the flush and the item loop -/

/-- The committed-plus-buffered rows of a state: everything this run still
intends to have durable (committed rows first). -/
def cb (st : ExState) : List RawRecord := st.session.committed ++ st.buffer

lemma flush_buffer_ok (s : DbSession) (buf : List RawRecord) :
    flush_buffer true s buf =
      ({ committed := s.committed ++ (s.pending ++ buf), pending := [] }, none) := by
  simp [flush_buffer]

lemma flush_buffer_fail (s : DbSession) (buf : List RawRecord) :
    flush_buffer false s buf =
      ({ committed := s.committed, pending := [] }, some ⟨flushRecordIds buf⟩) := by
  simp [flush_buffer]

lemma applyFlush_ok (ctx : ExCtx) (st : ExState)
    (h : ctx.flushOk st.flushSizes.length = true) :
    applyFlush ctx st =
      { st with
        session := { committed := st.session.committed ++ (st.session.pending ++ st.buffer),
                     pending := [] },
        buffer := [],
        flushSizes := st.flushSizes ++ [st.buffer.length] } := by
  simp [applyFlush, h, flush_buffer_ok]

lemma applyFlush_fail (ctx : ExCtx) (st : ExState)
    (h : ctx.flushOk st.flushSizes.length = false) :
    applyFlush ctx st =
      { st with
        session := { committed := st.session.committed, pending := [] },
        flushSizes := st.flushSizes ++ [st.buffer.length],
        flushFailed := some ⟨flushRecordIds st.buffer⟩ } := by
  simp [applyFlush, h, flush_buffer_fail]

lemma procItem_halted (ctx : ExCtx) (st : ExState) (a : Item)
    (h : st.halted = true) : procItem ctx st a = st := by
  simp [procItem, h]

lemma procItem_failed (ctx : ExCtx) (st : ExState) (a : Item) (e : FlushError)
    (h : st.flushFailed = some e) : procItem ctx st a = st := by
  apply procItem_halted
  simp [ExState.halted, h]

lemma procPage_halted (ctx : ExCtx) (st : ExState) (p : ApiData)
    (h : st.halted = true) : procPage ctx st p = st := by
  simp only [procPage, h]
  rfl

lemma procPage_failed (ctx : ExCtx) (st : ExState) (p : ApiData) (e : FlushError)
    (h : st.flushFailed = some e) : procPage ctx st p = st := by
  apply procPage_halted
  simp [ExState.halted, h]

lemma halted_false_iff (st : ExState) :
    st.halted = false ↔ st.flushFailed = none ∧ st.earlyReturn = false := by
  cases hf : st.flushFailed <;> simp [ExState.halted, hf]

/-- Case lemma: unresolvable identifier. -/
lemma procItem_emptyId (ctx : ExCtx) (st : ExState) (a : Item)
    (hh : st.halted = false) (hid : resolveEntityId ctx.resource a = "") :
    procItem ctx st a = { st with stSkipped := st.stSkipped + 1 } := by
  simp [procItem, hh, hid]

/-- Case lemma: identifier already seen this run (in-memory set hit). -/
lemma procItem_dup (ctx : ExCtx) (st : ExState) (a : Item)
    (hh : st.halted = false)
    (hne : resolveEntityId ctx.resource a ≠ "")
    (hdup : resolveEntityId ctx.resource a ∈ st.processedIds) :
    procItem ctx st a = st := by
  simp [procItem, hh, hdup, hne]

/-- Case lemma: identifier fresh this run but found in the staging set. -/
lemma procItem_existingSkip (ctx : ExCtx) (st : ExState) (a : Item)
    (hh : st.halted = false)
    (hne : resolveEntityId ctx.resource a ≠ "")
    (hnd : resolveEntityId ctx.resource a ∉ st.processedIds)
    (hex : resolveEntityId ctx.resource a ∈ st.existing) :
    procItem ctx st a =
      { st with
        processedIds := st.processedIds ++ [resolveEntityId ctx.resource a],
        stAlready := st.stAlready + 1 } := by
  simp [procItem, procKnownNew, hh, hne, hnd, hex]

/-- Case lemma: fresh identifier failing validation. -/
lemma procItem_invalid (ctx : ExCtx) (st : ExState) (a : Item)
    (hh : st.halted = false)
    (hne : resolveEntityId ctx.resource a ≠ "")
    (hnd : resolveEntityId ctx.resource a ∉ st.processedIds)
    (hex : resolveEntityId ctx.resource a ∉ st.existing)
    (hv : validate_record a ctx.resource ≠ []) :
    procItem ctx st a =
      { st with
        processedIds := st.processedIds ++ [resolveEntityId ctx.resource a],
        validationErrors := st.validationErrors + 1,
        stSkipped := st.stSkipped + 1 } := by
  simp [procItem, procKnownNew, hh, hne, hnd, hex, hv]

/-- Case lemma: fresh valid identifier in a non-test run is written. -/
lemma procItem_write (ctx : ExCtx) (st : ExState) (a : Item)
    (hh : st.halted = false) (htm : ctx.testMode = false)
    (hne : resolveEntityId ctx.resource a ≠ "")
    (hnd : resolveEntityId ctx.resource a ∉ st.processedIds)
    (hex : resolveEntityId ctx.resource a ∉ st.existing)
    (hv : validate_record a ctx.resource = []) :
    procItem ctx st a =
      bufferRecord ctx
        { st with processedIds := st.processedIds ++ [resolveEntityId ctx.resource a] }
        (resolveEntityId ctx.resource a) a := by
  simp [procItem, procKnownNew, hh, hne, hnd, hex, hv, htm]

/-- The record a write step appends. -/
def newRaw (ctx : ExCtx) (entityId : String) (item : Item) : RawRecord :=
  { source_id := entityId, raw_data := item, etl_batch_id := ctx.batchId }

/-- State after the buffer append of a write step, before a possible flush. -/
def pushRaw (ctx : ExCtx) (st : ExState) (entityId : String) (item : Item) :
    ExState :=
  { st with
    buffer := st.buffer ++ [newRaw ctx entityId item],
    stAdded := st.stAdded + 1,
    recordsProcessed := st.recordsProcessed + 1 }

lemma bufferRecord_shape (ctx : ExCtx) (st : ExState) (entityId : String)
    (a : Item) :
    bufferRecord ctx st entityId a = pushRaw ctx st entityId a ∨
    bufferRecord ctx st entityId a = applyFlush ctx (pushRaw ctx st entityId a) := by
  by_cases h : ctx.batchSize ≤ (pushRaw ctx st entityId a).buffer.length
  · right
    simp [bufferRecord, pushRaw, newRaw] at h ⊢
    simp [h]
  · left
    simp [bufferRecord, pushRaw, newRaw] at h ⊢
    simp [h]

lemma applyFlush_shape (ctx : ExCtx) (st : ExState) :
    applyFlush ctx st =
      { st with
        session := { committed := st.session.committed ++ (st.session.pending ++ st.buffer),
                     pending := [] },
        buffer := [],
        flushSizes := st.flushSizes ++ [st.buffer.length] } ∨
    applyFlush ctx st =
      { st with
        session := { committed := st.session.committed, pending := [] },
        flushSizes := st.flushSizes ++ [st.buffer.length],
        flushFailed := some ⟨flushRecordIds st.buffer⟩ } := by
  by_cases h : ctx.flushOk st.flushSizes.length = true
  · exact Or.inl (applyFlush_ok ctx st h)
  · exact Or.inr (applyFlush_fail ctx st (by simpa using h))

/-- Exhaustive description of one non-test item step. -/
lemma procItem_shape (ctx : ExCtx) (st : ExState) (a : Item)
    (htm : ctx.testMode = false) :
    procItem ctx st a = st ∨
    procItem ctx st a = { st with stSkipped := st.stSkipped + 1 } ∨
    procItem ctx st a =
      { st with
        processedIds := st.processedIds ++ [resolveEntityId ctx.resource a],
        stAlready := st.stAlready + 1 } ∨
    procItem ctx st a =
      { st with
        processedIds := st.processedIds ++ [resolveEntityId ctx.resource a],
        validationErrors := st.validationErrors + 1,
        stSkipped := st.stSkipped + 1 } ∨
    (st.halted = false ∧
     resolveEntityId ctx.resource a ≠ "" ∧
     resolveEntityId ctx.resource a ∉ st.processedIds ∧
     resolveEntityId ctx.resource a ∉ st.existing ∧
     validate_record a ctx.resource = [] ∧
     procItem ctx st a =
       bufferRecord ctx
         { st with processedIds := st.processedIds ++ [resolveEntityId ctx.resource a] }
         (resolveEntityId ctx.resource a) a) := by
  by_cases hh : st.halted = true
  · exact Or.inl (procItem_halted ctx st a hh)
  · replace hh : st.halted = false := by simpa using hh
    by_cases hid : resolveEntityId ctx.resource a = ""
    · exact Or.inr (Or.inl (procItem_emptyId ctx st a hh hid))
    · by_cases hdup : resolveEntityId ctx.resource a ∈ st.processedIds
      · exact Or.inl (procItem_dup ctx st a hh hid hdup)
      · by_cases hex : resolveEntityId ctx.resource a ∈ st.existing
        · exact Or.inr (Or.inr (Or.inl (procItem_existingSkip ctx st a hh hid hdup hex)))
        · by_cases hv : validate_record a ctx.resource = []
          · exact Or.inr (Or.inr (Or.inr (Or.inr
              ⟨hh, hid, hdup, hex, hv, procItem_write ctx st a hh htm hid hdup hex hv⟩)))
          · exact Or.inr (Or.inr (Or.inr (Or.inl
              (procItem_invalid ctx st a hh hid hdup hex hv))))

/-- Fields a write step does and does not change. -/
lemma bufferRecord_fields (ctx : ExCtx) (st : ExState) (entityId : String)
    (a : Item) :
    (bufferRecord ctx st entityId a).existing = st.existing ∧
    (bufferRecord ctx st entityId a).processedIds = st.processedIds ∧
    (bufferRecord ctx st entityId a).earlyReturn = st.earlyReturn ∧
    (bufferRecord ctx st entityId a).stTotal = st.stTotal ∧
    (bufferRecord ctx st entityId a).testRecords = st.testRecords ∧
    (bufferRecord ctx st entityId a).recordsProcessed = st.recordsProcessed + 1 ∧
    ((bufferRecord ctx st entityId a).flushFailed = none →
      st.flushFailed = none) ∧
    (st.session.pending = [] →
      (bufferRecord ctx st entityId a).session.pending = []) ∧
    (st.session.pending = [] →
      cb (bufferRecord ctx st entityId a) = cb st ++ [newRaw ctx entityId a]) := by
  rcases bufferRecord_shape ctx st entityId a with hb | hb
  · rw [hb]
    refine ⟨rfl, rfl, rfl, rfl, rfl, rfl, ?_, ?_, ?_⟩
    · intro h; simpa [pushRaw] using h
    · intro h; simpa [pushRaw] using h
    · intro _; simp [pushRaw, cb, List.append_assoc]
  · rw [hb]
    rcases applyFlush_shape ctx (pushRaw ctx st entityId a) with hf | hf <;> rw [hf]
    · refine ⟨rfl, rfl, rfl, rfl, rfl, rfl, ?_, ?_, ?_⟩
      · intro h; simpa [pushRaw] using h
      · intro _; simp
      · intro h; simp [pushRaw, cb, newRaw, h, List.append_assoc]
    · refine ⟨rfl, rfl, rfl, rfl, rfl, rfl, ?_, ?_, ?_⟩
      · intro h; simp [pushRaw] at h
      · intro _; simp
      · intro _; simp [pushRaw, cb, newRaw, List.append_assoc]

/-- Fields one non-test item step does and does not change, the backwards
propagation of failure-freedom, and growth of the committed-plus-buffered
rows. -/
lemma procItem_fields (ctx : ExCtx) (st : ExState) (a : Item)
    (htm : ctx.testMode = false) :
    (procItem ctx st a).existing = st.existing ∧
    (procItem ctx st a).earlyReturn = st.earlyReturn ∧
    (procItem ctx st a).stTotal = st.stTotal ∧
    (procItem ctx st a).testRecords = st.testRecords ∧
    ((procItem ctx st a).flushFailed = none → st.flushFailed = none) ∧
    (st.session.pending = [] → (procItem ctx st a).session.pending = []) ∧
    (st.session.pending = [] → ∃ t, cb (procItem ctx st a) = cb st ++ t) := by
  rcases procItem_shape ctx st a htm with h | h | h | h | ⟨-, -, -, -, -, h⟩ <;> rw [h]
  · exact ⟨rfl, rfl, rfl, rfl, fun h => h, fun h => h, fun _ => ⟨[], by simp⟩⟩
  · exact ⟨rfl, rfl, rfl, rfl, fun h => h, fun h => h, fun _ => ⟨[], by simp [cb]⟩⟩
  · exact ⟨rfl, rfl, rfl, rfl, fun h => h, fun h => h, fun _ => ⟨[], by simp [cb]⟩⟩
  · exact ⟨rfl, rfl, rfl, rfl, fun h => h, fun h => h, fun _ => ⟨[], by simp [cb]⟩⟩
  · have hf := bufferRecord_fields ctx
      { st with processedIds := st.processedIds ++ [resolveEntityId ctx.resource a] }
      (resolveEntityId ctx.resource a) a
    refine ⟨hf.1, hf.2.2.1, hf.2.2.2.1, hf.2.2.2.2.1, ?_, ?_, ?_⟩
    · intro hn
      exact hf.2.2.2.2.2.2.1 hn
    · intro hp
      exact hf.2.2.2.2.2.2.2.1 hp
    · intro hp
      refine ⟨[newRaw ctx (resolveEntityId ctx.resource a) a], ?_⟩
      have := hf.2.2.2.2.2.2.2.2 hp
      simpa [cb] using this

lemma foldItems_halted (ctx : ExCtx) (L : List Item) :
    ∀ st : ExState, st.halted = true → L.foldl (procItem ctx) st = st := by
  induction L with
  | nil => intro st _; rfl
  | cons a L ih =>
    intro st hh
    simp only [List.foldl_cons, procItem_halted ctx st a hh, ih st hh]

/-- Fold version of `procItem_fields`. -/
lemma foldItems_fields (ctx : ExCtx) (htm : ctx.testMode = false) (L : List Item) :
    ∀ st : ExState,
    (L.foldl (procItem ctx) st).existing = st.existing ∧
    (L.foldl (procItem ctx) st).earlyReturn = st.earlyReturn ∧
    ((L.foldl (procItem ctx) st).flushFailed = none → st.flushFailed = none) ∧
    (st.session.pending = [] → (L.foldl (procItem ctx) st).session.pending = []) ∧
    (st.session.pending = [] → ∃ t, cb (L.foldl (procItem ctx) st) = cb st ++ t) := by
  induction L with
  | nil =>
    intro st
    exact ⟨rfl, rfl, fun h => h, fun h => h, fun _ => ⟨[], by simp⟩⟩
  | cons a L ih =>
    intro st
    have h1 := procItem_fields ctx st a htm
    have h2 := ih (procItem ctx st a)
    simp only [List.foldl_cons]
    refine ⟨h2.1.trans h1.1, h2.2.1.trans h1.2.1, ?_, ?_, ?_⟩
    · intro hn
      exact h1.2.2.2.2.1 (h2.2.2.1 hn)
    · intro hp
      exact h2.2.2.2.1 (h1.2.2.2.2.2.1 hp)
    · intro hp
      obtain ⟨t1, ht1⟩ := h1.2.2.2.2.2.2 hp
      obtain ⟨t2, ht2⟩ := h2.2.2.2.2 (h1.2.2.2.2.2.1 hp)
      exact ⟨t1 ++ t2, by rw [ht2, ht1, List.append_assoc]⟩

/-! ## The page loop is the item loop up to the `total_items` stat -/

/-- Overwrite the `total_items` stat (the only field the page loop touches
beyond what the item loop does). -/
def setTotal (st : ExState) (n : Nat) : ExState := { st with stTotal := n }

lemma setTotal_self (st : ExState) : setTotal st st.stTotal = st := rfl

lemma applyFlush_setTotal (ctx : ExCtx) (st : ExState) (n : Nat) :
    applyFlush ctx (setTotal st n) = setTotal (applyFlush ctx st) n := by
  by_cases h : ctx.flushOk st.flushSizes.length = true
  · rw [applyFlush_ok ctx st h, applyFlush_ok ctx (setTotal st n) h]
    rfl
  · replace h : ctx.flushOk st.flushSizes.length = false := by simpa using h
    rw [applyFlush_fail ctx st h, applyFlush_fail ctx (setTotal st n) h]
    rfl

lemma bufferRecord_eq (ctx : ExCtx) (st : ExState) (entityId : String)
    (a : Item) :
    bufferRecord ctx st entityId a =
      if ctx.batchSize ≤ (pushRaw ctx st entityId a).buffer.length then
        applyFlush ctx (pushRaw ctx st entityId a)
      else pushRaw ctx st entityId a := by
  have hlen : (pushRaw ctx st entityId a).buffer.length = st.buffer.length + 1 := by
    simp [pushRaw]
  by_cases h : ctx.batchSize ≤ st.buffer.length + 1
  · rw [if_pos (by rw [hlen]; exact h)]
    simp [bufferRecord, pushRaw, newRaw, h]
  · rw [if_neg (by rw [hlen]; exact h)]
    simp [bufferRecord, pushRaw, newRaw, h]

lemma bufferRecord_setTotal (ctx : ExCtx) (st : ExState) (entityId : String)
    (a : Item) (n : Nat) :
    bufferRecord ctx (setTotal st n) entityId a =
      setTotal (bufferRecord ctx st entityId a) n := by
  have hpush : pushRaw ctx (setTotal st n) entityId a =
      setTotal (pushRaw ctx st entityId a) n := rfl
  rw [bufferRecord_eq, bufferRecord_eq, hpush]
  have hc : (setTotal (pushRaw ctx st entityId a) n).buffer.length =
      (pushRaw ctx st entityId a).buffer.length := rfl
  rw [hc]
  by_cases h : ctx.batchSize ≤ (pushRaw ctx st entityId a).buffer.length
  · rw [if_pos h, if_pos h, applyFlush_setTotal]
  · rw [if_neg h, if_neg h]

lemma procItem_setTotal (ctx : ExCtx) (st : ExState) (a : Item) (n : Nat)
    (htm : ctx.testMode = false) :
    procItem ctx (setTotal st n) a = setTotal (procItem ctx st a) n := by
  have hhalt : (setTotal st n).halted = st.halted := rfl
  by_cases hh : st.halted = true
  · rw [procItem_halted _ _ _ (hhalt.trans hh), procItem_halted _ _ _ hh]
  · replace hh : st.halted = false := by simpa using hh
    have hh2 : (setTotal st n).halted = false := hhalt.trans hh
    by_cases hid : resolveEntityId ctx.resource a = ""
    · rw [procItem_emptyId _ _ _ hh2 hid, procItem_emptyId _ _ _ hh hid]
      rfl
    · by_cases hdup : resolveEntityId ctx.resource a ∈ st.processedIds
      · rw [procItem_dup _ _ _ hh2 hid hdup, procItem_dup _ _ _ hh hid hdup]
      · by_cases hex : resolveEntityId ctx.resource a ∈ st.existing
        · rw [procItem_existingSkip _ _ _ hh2 hid hdup hex,
            procItem_existingSkip _ _ _ hh hid hdup hex]
          rfl
        · by_cases hv : validate_record a ctx.resource = []
          · rw [procItem_write _ _ _ hh2 htm hid hdup hex hv,
              procItem_write _ _ _ hh htm hid hdup hex hv]
            exact bufferRecord_setTotal ctx
              { st with processedIds := st.processedIds ++ [resolveEntityId ctx.resource a] }
              (resolveEntityId ctx.resource a) a n
          · rw [procItem_invalid _ _ _ hh2 hid hdup hex hv,
              procItem_invalid _ _ _ hh hid hdup hex hv]
            rfl

lemma setTotal_setTotal (st : ExState) (a b : Nat) :
    setTotal (setTotal st a) b = setTotal st b := rfl

lemma setTotal_halted (st : ExState) (n : Nat) :
    (setTotal st n).halted = st.halted := rfl

lemma foldItems_setTotal (ctx : ExCtx) (htm : ctx.testMode = false)
    (L : List Item) : ∀ (st : ExState) (n : Nat),
    L.foldl (procItem ctx) (setTotal st n) = setTotal (L.foldl (procItem ctx) st) n := by
  induction L with
  | nil => intro st n; rfl
  | cons a L ih =>
    intro st n
    simp only [List.foldl_cons, procItem_setTotal ctx st a n htm, ih]

/-- The item sequence of a whole page stream, in consumption order. -/
def streamItems (pages : List ApiData) : List Item :=
  (pages.map extractPageItems).flatten

lemma streamItems_nil : streamItems [] = [] := rfl

lemma streamItems_cons (p : ApiData) (ps : List ApiData) :
    streamItems (p :: ps) = extractPageItems p ++ streamItems ps := by
  simp [streamItems]

/-- One page step is the item fold of its items, up to the page counter. -/
lemma procPage_as_items (ctx : ExCtx) (st : ExState) (p : ApiData)
    (htm : ctx.testMode = false) :
    procPage ctx st p =
      setTotal ((extractPageItems p).foldl (procItem ctx) st)
        (if st.halted = true then st.stTotal
         else st.stTotal + (extractPageItems p).length) := by
  by_cases hh : st.halted = true
  · rw [procPage_halted ctx st p hh, if_pos hh, foldItems_halted ctx _ st hh,
      setTotal_self]
  · replace hh : st.halted = false := by simpa using hh
    rw [if_neg (by simp [hh])]
    have h1 : procPage ctx st p =
        (extractPageItems p).foldl (procItem ctx)
          (setTotal st (st.stTotal + (extractPageItems p).length)) := by
      simp only [procPage, hh]
      rfl
    rw [h1, foldItems_setTotal ctx htm]

lemma procPage_setTotal (ctx : ExCtx) (st : ExState) (p : ApiData) (n : Nat)
    (htm : ctx.testMode = false) :
    ∃ m, procPage ctx (setTotal st n) p = setTotal (procPage ctx st p) m := by
  rw [procPage_as_items ctx (setTotal st n) p htm, procPage_as_items ctx st p htm,
    foldItems_setTotal ctx htm, setTotal_setTotal]
  exact ⟨_, rfl⟩

lemma foldPages_setTotal (ctx : ExCtx) (htm : ctx.testMode = false)
    (pages : List ApiData) : ∀ (st : ExState) (n : Nat),
    ∃ m, pages.foldl (procPage ctx) (setTotal st n) =
      setTotal (pages.foldl (procPage ctx) st) m := by
  induction pages with
  | nil => intro st n; exact ⟨n, rfl⟩
  | cons p ps ih =>
    intro st n
    obtain ⟨m1, hm1⟩ := procPage_setTotal ctx st p n htm
    simp only [List.foldl_cons, hm1]
    exact ih (procPage ctx st p) m1

/-- The whole page fold is the fold over the flattened item stream, up to
the `total_items` stat. -/
lemma foldPages_as_items (ctx : ExCtx) (htm : ctx.testMode = false)
    (pages : List ApiData) : ∀ st : ExState,
    ∃ n, pages.foldl (procPage ctx) st =
      setTotal ((streamItems pages).foldl (procItem ctx) st) n := by
  induction pages with
  | nil => intro st; exact ⟨st.stTotal, (setTotal_self st).symm⟩
  | cons p ps ih =>
    intro st
    simp only [List.foldl_cons, streamItems_cons, List.foldl_append]
    rw [procPage_as_items ctx st p htm]
    obtain ⟨m, hm⟩ := foldPages_setTotal ctx htm ps
      ((extractPageItems p).foldl (procItem ctx) st)
      (if st.halted = true then st.stTotal
       else st.stTotal + (extractPageItems p).length)
    rw [hm]
    obtain ⟨k, hk⟩ := ih ((extractPageItems p).foldl (procItem ctx) st)
    rw [hk, setTotal_setTotal]
    exact ⟨m, rfl⟩

/-! ## Unfolding lemmas for `extract_resource` -/

/-- The step-1 snapshot of a non-test run. -/
def scanSnapshot (scanOk : Bool) (db0 : DbSession) : List String :=
  if scanOk then sourceIds db0.committed else []

/-- The state at the end of the page loop of a non-test run. -/
def foldState (ctx : ExCtx) (scanOk : Bool) (pages : List ApiData)
    (db0 : DbSession) : ExState :=
  pages.foldl (procPage ctx) (initExState (scanSnapshot scanOk db0) db0)

lemma extract_resource_eq (ctx : ExCtx) (scanOk : Bool) (pages : List ApiData)
    (db0 : DbSession)
    (hreg : ctx.resource = "contacts" ∨ ctx.resource = "policies")
    (htm : ctx.testMode = false) :
    extract_resource ctx scanOk pages db0 =
      extractTail ctx (foldState ctx scanOk pages db0) := by
  have hc : (RESOURCE_MODEL_MAP.map (fun p => p.1)).contains ctx.resource = true := by
    rcases hreg with h | h <;> simp [RESOURCE_MODEL_MAP, h]
  simp only [extract_resource, hc, Bool.not_true, Bool.false_eq_true, if_false,
    htm, Bool.not_false, Bool.true_and]
  rfl

lemma extractTail_failed (ctx : ExCtx) (st1 : ExState) (e : FlushError)
    (h : st1.flushFailed = some e) :
    extractTail ctx st1 = (.errFlush e, st1) := by
  simp [extractTail, h]

lemma extractTail_emptyBuffer (ctx : ExCtx) (st1 : ExState)
    (h1 : st1.flushFailed = none) (h2 : st1.earlyReturn = false)
    (h3 : st1.buffer = []) (htm : ctx.testMode = false) :
    extractTail ctx st1 = (.count st1.recordsProcessed, st1) := by
  simp [extractTail, h1, h2, h3, htm]

lemma extractTail_flush_ok (ctx : ExCtx) (st1 : ExState)
    (h1 : st1.flushFailed = none) (h2 : st1.earlyReturn = false)
    (h3 : st1.buffer ≠ []) (htm : ctx.testMode = false)
    (hok : ctx.flushOk st1.flushSizes.length = true) :
    extractTail ctx st1 = (.count st1.recordsProcessed, applyFlush ctx st1) := by
  have hfa := applyFlush_ok ctx st1 hok
  simp [extractTail, h1, h2, h3, htm, hfa]

lemma extractTail_flush_fail (ctx : ExCtx) (st1 : ExState)
    (h1 : st1.flushFailed = none) (h2 : st1.earlyReturn = false)
    (h3 : st1.buffer ≠ []) (htm : ctx.testMode = false)
    (hok : ctx.flushOk st1.flushSizes.length = false) :
    extractTail ctx st1 =
      (.errFlush ⟨flushRecordIds st1.buffer⟩, applyFlush ctx st1) := by
  have hfa := applyFlush_fail ctx st1 hok
  simp [extractTail, h1, h2, h3, htm, hfa]

lemma setTotal_fields (st : ExState) (n : Nat) :
    (setTotal st n).existing = st.existing ∧
    (setTotal st n).earlyReturn = st.earlyReturn ∧
    (setTotal st n).session = st.session ∧
    (setTotal st n).flushFailed = st.flushFailed ∧
    (setTotal st n).buffer = st.buffer ∧
    (setTotal st n).recordsProcessed = st.recordsProcessed ∧
    (setTotal st n).flushSizes = st.flushSizes ∧
    (setTotal st n).processedIds = st.processedIds ∧
    cb (setTotal st n) = cb st :=
  ⟨rfl, rfl, rfl, rfl, rfl, rfl, rfl, rfl, rfl⟩

lemma foldState_fields (ctx : ExCtx) (scanOk : Bool) (pages : List ApiData)
    (db0 : DbSession) (htm : ctx.testMode = false) (hpend : db0.pending = []) :
    (foldState ctx scanOk pages db0).existing = scanSnapshot scanOk db0 ∧
    (foldState ctx scanOk pages db0).earlyReturn = false ∧
    (foldState ctx scanOk pages db0).session.pending = [] ∧
    (∃ t, cb (foldState ctx scanOk pages db0) = db0.committed ++ t) := by
  obtain ⟨n, hn⟩ := foldPages_as_items ctx htm pages
    (initExState (scanSnapshot scanOk db0) db0)
  have hfi := foldItems_fields ctx htm (streamItems pages)
    (initExState (scanSnapshot scanOk db0) db0)
  have hp0 : (initExState (scanSnapshot scanOk db0) db0).session.pending = [] := hpend
  unfold foldState
  rw [hn]
  refine ⟨hfi.1, hfi.2.1, hfi.2.2.2.1 hp0, ?_⟩
  obtain ⟨t, ht⟩ := hfi.2.2.2.2 hp0
  refine ⟨t, ?_⟩
  rw [(setTotal_fields _ n).2.2.2.2.2.2.2.2, ht]
  simp [cb, initExState]

lemma extract_final (ctx : ExCtx) (scanOk : Bool) (pages : List ApiData)
    (db0 : DbSession)
    (hreg : ctx.resource = "contacts" ∨ ctx.resource = "policies")
    (htm : ctx.testMode = false) (hpend : db0.pending = [])
    (hnf : (extract_resource ctx scanOk pages db0).2.flushFailed = none) :
    (foldState ctx scanOk pages db0).flushFailed = none ∧
    (extract_resource ctx scanOk pages db0).2.session.committed =
      cb (foldState ctx scanOk pages db0) ∧
    (extract_resource ctx scanOk pages db0).2.session.pending = [] ∧
    (extract_resource ctx scanOk pages db0).1 =
      .count ((foldState ctx scanOk pages db0).recordsProcessed) := by
  have hff := foldState_fields ctx scanOk pages db0 htm hpend
  rw [extract_resource_eq ctx scanOk pages db0 hreg htm] at hnf ⊢
  cases hf : (foldState ctx scanOk pages db0).flushFailed with
  | some e =>
    rw [extractTail_failed ctx _ e hf] at hnf
    rw [hnf] at hf
    exact absurd hf (by simp)
  | none =>
    by_cases hb : (foldState ctx scanOk pages db0).buffer = []
    · rw [extractTail_emptyBuffer ctx _ hf hff.2.1 hb htm]
      exact ⟨rfl, by simp [cb, hb], hff.2.2.1, rfl⟩
    · by_cases hok : ctx.flushOk (foldState ctx scanOk pages db0).flushSizes.length = true
      · rw [extractTail_flush_ok ctx _ hf hff.2.1 hb htm hok]
        rw [applyFlush_ok ctx _ hok]
        exact ⟨rfl, by simp [cb, hff.2.2.1], by simp, rfl⟩
      · replace hok : ctx.flushOk (foldState ctx scanOk pages db0).flushSizes.length = false := by
          simpa using hok
        rw [extractTail_flush_fail ctx _ hf hff.2.1 hb htm hok] at hnf
        rw [applyFlush_fail ctx _ hok] at hnf
        simp at hnf

/-! ## The second-run simulation for idempotence -/

lemma sourceIds_append (l1 l2 : List RawRecord) :
    sourceIds (l1 ++ l2) = sourceIds l1 ++ sourceIds l2 := by
  simp [sourceIds]

/-- A write step puts its identifier among the committed-plus-buffered rows. -/
lemma procItem_write_mem (ctx : ExCtx) (st : ExState) (a : Item)
    (hh : st.halted = false) (htm : ctx.testMode = false)
    (hne : resolveEntityId ctx.resource a ≠ "")
    (hnd : resolveEntityId ctx.resource a ∉ st.processedIds)
    (hex : resolveEntityId ctx.resource a ∉ st.existing)
    (hv : validate_record a ctx.resource = [])
    (hpend : st.session.pending = []) :
    resolveEntityId ctx.resource a ∈ sourceIds (cb (procItem ctx st a)) := by
  rw [procItem_write ctx st a hh htm hne hnd hex hv]
  have hb := (bufferRecord_fields ctx
    { st with processedIds := st.processedIds ++ [resolveEntityId ctx.resource a] }
    (resolveEntityId ctx.resource a) a).2.2.2.2.2.2.2.2 hpend
  rw [hb, sourceIds_append]
  simp [sourceIds, newRaw]

/-- What is true of the second run's state while it has written nothing:
the step-1 snapshot is `E2`, the session is untouched, the in-run set
matches the first run's, and nothing was buffered, flushed or counted. -/
def NoWriteState (E2 : List String) (S2 : DbSession) (pids : List String)
    (st : ExState) : Prop :=
  st.existing = E2 ∧ st.session = S2 ∧ st.processedIds = pids ∧
  st.buffer = [] ∧ st.recordsProcessed = 0 ∧ st.flushFailed = none ∧
  st.earlyReturn = false

/-- Simulation: over the same item stream, if every identifier the first
run commits-or-buffers ends up in `E2`, then a second run whose staging
snapshot is `E2` writes nothing and its in-run set evolves exactly as the
first run's. -/
lemma run2_items (ctx1 ctx2 : ExCtx) (E2 : List String) (S2 : DbSession)
    (hres : ctx2.resource = ctx1.resource)
    (ht1 : ctx1.testMode = false) (ht2 : ctx2.testMode = false)
    (L : List Item) :
    ∀ (st1 st2 : ExState),
    NoWriteState E2 S2 st1.processedIds st2 →
    (∀ x ∈ st1.existing, x ∈ E2) →
    st1.session.pending = [] →
    st1.earlyReturn = false →
    (L.foldl (procItem ctx1) st1).flushFailed = none →
    (∀ x ∈ sourceIds (cb (L.foldl (procItem ctx1) st1)), x ∈ E2) →
    NoWriteState E2 S2 (L.foldl (procItem ctx1) st1).processedIds
      (L.foldl (procItem ctx2) st2) := by
  induction L with
  | nil =>
    intro st1 st2 hrel _ _ _ _ _
    exact hrel
  | cons a L ih =>
    intro st1 st2 hrel hex hpend her1 hnf hcb
    obtain ⟨hex2, hsess2, hpid2, hbuf2, hrp2, hff2, her2⟩ := hrel
    simp only [List.foldl_cons] at hnf hcb ⊢
    have hnf1 : st1.flushFailed = none :=
      (procItem_fields ctx1 st1 a ht1).2.2.2.2.1
        ((foldItems_fields ctx1 ht1 L (procItem ctx1 st1 a)).2.2.1 hnf)
    have hh1 : st1.halted = false := (halted_false_iff st1).mpr ⟨hnf1, her1⟩
    have hh2 : st2.halted = false := (halted_false_iff st2).mpr ⟨hff2, her2⟩
    have hid2 : resolveEntityId ctx2.resource a = resolveEntityId ctx1.resource a := by
      rw [hres]
    have hv2 : validate_record a ctx2.resource = validate_record a ctx1.resource := by
      rw [hres]
    by_cases hid0 : resolveEntityId ctx1.resource a = ""
    · have e1 := procItem_emptyId ctx1 st1 a hh1 hid0
      have e2 := procItem_emptyId ctx2 st2 a hh2 (hid2.trans hid0)
      rw [e1] at hnf hcb ⊢
      rw [e2]
      exact ih _ _ ⟨hex2, hsess2, hpid2, hbuf2, hrp2, hff2, her2⟩ hex hpend her1 hnf hcb
    · by_cases hdup : resolveEntityId ctx1.resource a ∈ st1.processedIds
      · have e1 := procItem_dup ctx1 st1 a hh1 hid0 hdup
        have e2 := procItem_dup ctx2 st2 a hh2 (by rw [hid2]; exact hid0)
          (by rw [hid2, hpid2]; exact hdup)
        rw [e1] at hnf hcb ⊢
        rw [e2]
        exact ih _ _ ⟨hex2, hsess2, hpid2, hbuf2, hrp2, hff2, her2⟩ hex hpend her1 hnf hcb
      · by_cases hmem : resolveEntityId ctx1.resource a ∈ E2
        · -- the second run skips via the staging snapshot
          have e2 := procItem_existingSkip ctx2 st2 a hh2 (by rw [hid2]; exact hid0)
            (by rw [hid2, hpid2]; exact hdup) (by rw [hid2, hex2]; exact hmem)
          rw [e2]
          -- the first run extends its in-run set with the same identifier,
          -- whatever branch it takes
          by_cases hex1 : resolveEntityId ctx1.resource a ∈ st1.existing
          · have e1 := procItem_existingSkip ctx1 st1 a hh1 hid0 hdup hex1
            rw [e1] at hnf hcb ⊢
            refine ih _ _ ⟨hex2, hsess2, ?_, hbuf2, hrp2, hff2, her2⟩ hex hpend her1 hnf hcb
            simp [hid2, hpid2]
          · by_cases hval : validate_record a ctx1.resource = []
            · have e1 := procItem_write ctx1 st1 a hh1 ht1 hid0 hdup hex1 hval
              rw [e1] at hnf hcb ⊢
              have hbf := bufferRecord_fields ctx1
                { st1 with processedIds := st1.processedIds ++ [resolveEntityId ctx1.resource a] }
                (resolveEntityId ctx1.resource a) a
              refine ih _ _ ⟨hex2, hsess2, ?_, hbuf2, hrp2, hff2, her2⟩ ?_ ?_ ?_ hnf hcb
              · rw [hbf.2.1]
                simp [hid2, hpid2]
              · intro x hx
                rw [hbf.1] at hx
                exact hex x hx
              · exact hbf.2.2.2.2.2.2.2.1 hpend
              · exact hbf.2.2.1.trans her1
            · have e1 := procItem_invalid ctx1 st1 a hh1 hid0 hdup hex1 hval
              rw [e1] at hnf hcb ⊢
              refine ih _ _ ⟨hex2, hsess2, ?_, hbuf2, hrp2, hff2, her2⟩ hex hpend her1 hnf hcb
              simp [hid2, hpid2]
        · -- identifier not in E2: the first run cannot have a valid fresh
          -- item here, else its write would land in E2
          have hex1 : resolveEntityId ctx1.resource a ∉ st1.existing := fun hx =>
            hmem (hex _ hx)
          by_cases hval : validate_record a ctx1.resource = []
          · exfalso
            apply hmem
            apply hcb
            have hmem1 := procItem_write_mem ctx1 st1 a hh1 ht1 hid0 hdup hex1 hval hpend
            have hpend1 : (procItem ctx1 st1 a).session.pending = [] :=
              (procItem_fields ctx1 st1 a ht1).2.2.2.2.2.1 hpend
            obtain ⟨t, ht⟩ := (foldItems_fields ctx1 ht1 L (procItem ctx1 st1 a)).2.2.2.2 hpend1
            rw [ht, sourceIds_append]
            exact List.mem_append_left _ hmem1
          · have e1 := procItem_invalid ctx1 st1 a hh1 hid0 hdup hex1 hval
            have e2 := procItem_invalid ctx2 st2 a hh2 (by rw [hid2]; exact hid0)
              (by rw [hid2, hpid2]; exact hdup)
              (by rw [hid2, hex2]; exact hmem)
              (by rw [hv2]; exact hval)
            rw [e1] at hnf hcb ⊢
            rw [e2]
            refine ih _ _ ⟨hex2, hsess2, ?_, hbuf2, hrp2, hff2, her2⟩ hex hpend her1 hnf hcb
            simp [hid2, hpid2]

lemma foldState_def (ctx : ExCtx) (scanOk : Bool) (pages : List ApiData)
    (db0 : DbSession) :
    foldState ctx scanOk pages db0 =
      pages.foldl (procPage ctx) (initExState (scanSnapshot scanOk db0) db0) := rfl

/-- C1. Idempotence of extraction: a completed non-test run re-run against
the unchanged page stream, over the staging state it left, with a working
step-1 scan, returns a count of 0 and leaves the staging table untouched. -/
theorem C1_extract_idempotent
    (resource : String) (bs1 bs2 : Nat) (bid1 bid2 : String)
    (f1 f2 : Nat → Bool) (lim1 lim2 : Option Nat) (scan1 : Bool)
    (pages : List ApiData) (db0 : DbSession)
    (hreg : resource = "contacts" ∨ resource = "policies")
    (hpend : db0.pending = [])
    (hdone : (extract_resource ⟨resource, bs1, bid1, f1, false, lim1⟩ scan1
        pages db0).2.flushFailed = none) :
    (extract_resource ⟨resource, bs2, bid2, f2, false, lim2⟩ true pages
        (extract_resource ⟨resource, bs1, bid1, f1, false, lim1⟩ scan1
          pages db0).2.session).1 = .count 0 ∧
    (extract_resource ⟨resource, bs2, bid2, f2, false, lim2⟩ true pages
        (extract_resource ⟨resource, bs1, bid1, f1, false, lim1⟩ scan1
          pages db0).2.session).2.session =
      (extract_resource ⟨resource, bs1, bid1, f1, false, lim1⟩ scan1
        pages db0).2.session := by
  set ctx1 : ExCtx := ⟨resource, bs1, bid1, f1, false, lim1⟩ with hctx1
  set ctx2 : ExCtx := ⟨resource, bs2, bid2, f2, false, lim2⟩ with hctx2
  have ht1 : ctx1.testMode = false := rfl
  have ht2 : ctx2.testMode = false := rfl
  obtain ⟨hf1, hcomm, hpend1, hres1⟩ :=
    extract_final ctx1 scan1 pages db0 hreg ht1 hpend hdone
  set S1 := (extract_resource ctx1 scan1 pages db0).2.session with hS1
  set st01 := initExState (scanSnapshot scan1 db0) db0 with hst01
  obtain ⟨n1, hn1⟩ := foldPages_as_items ctx1 ht1 pages st01
  set X1 := (streamItems pages).foldl (procItem ctx1) st01 with hX1
  rw [foldState_def, hn1] at hf1 hcomm
  have hf1x : X1.flushFailed = none := hf1
  have hcommx : S1.committed = cb X1 := hcomm
  set st02 := initExState (scanSnapshot true S1) S1 with hst02
  obtain ⟨n2, hn2⟩ := foldPages_as_items ctx2 ht2 pages st02
  set X2 := (streamItems pages).foldl (procItem ctx2) st02 with hX2
  have hpend01 : st01.session.pending = [] := hpend
  have hcbmono := (foldItems_fields ctx1 ht1 (streamItems pages) st01).2.2.2.2 hpend01
  have hNW : NoWriteState (sourceIds S1.committed) S1 X1.processedIds X2 := by
    apply run2_items ctx1 ctx2 (sourceIds S1.committed) S1 rfl ht1 ht2
      (streamItems pages) st01 st02
    · exact ⟨rfl, rfl, rfl, rfl, rfl, rfl, rfl⟩
    · intro x hx
      rw [hcommx]
      obtain ⟨t, ht⟩ := hcbmono
      rw [ht, sourceIds_append]
      apply List.mem_append_left
      have hscan : ∀ y, y ∈ scanSnapshot scan1 db0 → y ∈ sourceIds db0.committed := by
        intro y hy
        cases scan1 with
        | true => simpa [scanSnapshot] using hy
        | false => simp [scanSnapshot] at hy
      have hcb01 : cb st01 = db0.committed := by
        simp [cb, hst01, initExState]
      rw [hcb01]
      exact hscan x hx
    · exact hpend
    · rfl
    · exact hf1x
    · intro x hx
      rw [hcommx]
      exact hx
  rw [extract_resource_eq ctx2 true pages S1 hreg ht2, foldState_def, hn2]
  have hff2 : (setTotal X2 n2).flushFailed = none := hNW.2.2.2.2.2.1
  have her2 : (setTotal X2 n2).earlyReturn = false := hNW.2.2.2.2.2.2
  have hbuf2 : (setTotal X2 n2).buffer = [] := hNW.2.2.2.1
  rw [extractTail_emptyBuffer ctx2 _ hff2 her2 hbuf2 ht2]
  refine ⟨?_, ?_⟩
  · have : (setTotal X2 n2).recordsProcessed = 0 := hNW.2.2.2.2.1
    simp [this]
  · exact hNW.2.1

/-! ## Flush failure propagation -/

lemma extract_resource_eq_any (ctx : ExCtx) (scanOk : Bool)
    (pages : List ApiData) (db0 : DbSession)
    (hc : (RESOURCE_MODEL_MAP.map (fun p => p.1)).contains ctx.resource = true) :
    extract_resource ctx scanOk pages db0 =
      extractTail ctx (pages.foldl (procPage ctx)
        (initExState (if !ctx.testMode && scanOk then sourceIds db0.committed else [])
          db0)) := by
  unfold extract_resource
  rw [hc]
  rfl

lemma extractTail_result_failed (ctx : ExCtx) (st1 : ExState) (e : FlushError)
    (h : (extractTail ctx st1).2.flushFailed = some e) :
    (extractTail ctx st1).1 = .errFlush e := by
  cases hf : st1.flushFailed with
  | some e2 =>
    rw [extractTail_failed ctx st1 e2 hf] at h ⊢
    have h2 : st1.flushFailed = some e := h
    have he : e2 = e := Option.some.inj (hf.symm.trans h2)
    show ExtractResult.errFlush e2 = .errFlush e
    rw [he]
  | none =>
    by_cases her : st1.earlyReturn = true
    · have heq : extractTail ctx st1 = (.testRecords st1.testRecords, st1) := by
        simp [extractTail, hf, her]
      rw [heq] at h
      have h2 : st1.flushFailed = some e := h
      rw [hf] at h2
      exact absurd h2 (by simp)
    · replace her : st1.earlyReturn = false := by simpa using her
      by_cases hbt : (!ctx.testMode && !st1.buffer.isEmpty) = true
      · cases hfa : (applyFlush ctx st1).flushFailed with
        | some e2 =>
          have heq : extractTail ctx st1 = (.errFlush e2, applyFlush ctx st1) := by
            simp [extractTail, hf, her, hbt, hfa]
          rw [heq] at h ⊢
          have h2 : (applyFlush ctx st1).flushFailed = some e := h
          have he : e2 = e := Option.some.inj (hfa.symm.trans h2)
          show ExtractResult.errFlush e2 = .errFlush e
          rw [he]
        | none =>
          have heq : extractTail ctx st1 =
              (.count (applyFlush ctx st1).recordsProcessed, applyFlush ctx st1) := by
            simp [extractTail, hf, her, hbt, hfa]
          rw [heq] at h
          have h2 : (applyFlush ctx st1).flushFailed = some e := h
          rw [hfa] at h2
          exact absurd h2 (by simp)
      · replace hbt : (!ctx.testMode && !st1.buffer.isEmpty) = false := by simpa using hbt
        have h2 : (extractTail ctx st1).2 = st1 := by
          by_cases htm : ctx.testMode = true
          · simp [extractTail, hf, her, hbt, htm]
          · replace htm : ctx.testMode = false := by simpa using htm
            have hbuf : st1.buffer = [] := by
              rw [htm] at hbt
              simpa using hbt
            simp [extractTail, hf, her, htm, hbuf]
        rw [h2] at h
        rw [hf] at h
        exact absurd h (by simp)

/-- C7. Flush atomicity: a successful flush commits the whole staged batch;
a failed flush leaves the committed rows exactly as they were, clears the
pending rows (rollback) and re-raises an error carrying every buffered
record's identifier; once a flush has failed, the item and page loops do
nothing further and the extraction returns that error. -/
theorem C7_flush_atomicity :
    (∀ (s : DbSession) (buf : List RawRecord),
      flush_buffer true s buf =
        ({ committed := s.committed ++ (s.pending ++ buf), pending := [] }, none)) ∧
    (∀ (s : DbSession) (buf : List RawRecord),
      flush_buffer false s buf =
        ({ committed := s.committed, pending := [] },
          some { recordIds := flushRecordIds buf })) ∧
    (∀ (ctx : ExCtx) (st : ExState) (a : Item) (e : FlushError),
      st.flushFailed = some e → procItem ctx st a = st) ∧
    (∀ (ctx : ExCtx) (st : ExState) (p : ApiData) (e : FlushError),
      st.flushFailed = some e → procPage ctx st p = st) ∧
    (∀ (ctx : ExCtx) (scanOk : Bool) (pages : List ApiData) (db0 : DbSession)
      (e : FlushError),
      (extract_resource ctx scanOk pages db0).2.flushFailed = some e →
      (extract_resource ctx scanOk pages db0).1 = .errFlush e) := by
  refine ⟨flush_buffer_ok, flush_buffer_fail, procItem_failed, procPage_failed, ?_⟩
  intro ctx scanOk pages db0 e h
  by_cases hc : (RESOURCE_MODEL_MAP.map (fun p => p.1)).contains ctx.resource = true
  · rw [extract_resource_eq_any ctx scanOk pages db0 hc] at h ⊢
    exact extractTail_result_failed ctx _ e h
  · replace hc : (RESOURCE_MODEL_MAP.map (fun p => p.1)).contains ctx.resource = false := by
      simpa using hc
    have heq : extract_resource ctx scanOk pages db0 =
        (.errUnsupported ctx.resource, initExState [] db0) := by
      unfold extract_resource
      rw [hc]
      rfl
    rw [heq] at h
    have h2 : (initExState [] db0).flushFailed = some e := h
    exact absurd h2 (by simp [initExState])

/-! ## Runs whose flushes all succeed never raise -/

lemma procItem_noFail (ctx : ExCtx) (st : ExState) (a : Item)
    (htm : ctx.testMode = false) (hfo : ∀ k, ctx.flushOk k = true) :
    (procItem ctx st a).flushFailed = st.flushFailed := by
  rcases procItem_shape ctx st a htm with h | h | h | h | ⟨-, -, -, -, -, h⟩ <;> rw [h]
  rcases bufferRecord_shape ctx _ (resolveEntityId ctx.resource a) a with hb | hb <;> rw [hb]
  · rfl
  · rw [applyFlush_ok ctx _ (hfo _)]
    rfl

lemma foldItems_noFail (ctx : ExCtx) (htm : ctx.testMode = false)
    (hfo : ∀ k, ctx.flushOk k = true) (L : List Item) :
    ∀ st : ExState, (L.foldl (procItem ctx) st).flushFailed = st.flushFailed := by
  induction L with
  | nil => intro st; rfl
  | cons a L ih =>
    intro st
    simp only [List.foldl_cons]
    rw [ih (procItem ctx st a), procItem_noFail ctx st a htm hfo]

/-- With every flush committing, a non-test run of a registered resource
returns a count (it neither raises nor retries), whatever the scan did. -/
lemma extract_noCrash (ctx : ExCtx) (scanOk : Bool) (pages : List ApiData)
    (db0 : DbSession)
    (hreg : ctx.resource = "contacts" ∨ ctx.resource = "policies")
    (htm : ctx.testMode = false) (hfo : ∀ k, ctx.flushOk k = true) :
    (extract_resource ctx scanOk pages db0).1 =
      .count (extract_resource ctx scanOk pages db0).2.recordsProcessed ∧
    (extract_resource ctx scanOk pages db0).2.flushFailed = none := by
  rw [extract_resource_eq ctx scanOk pages db0 hreg htm, foldState_def]
  obtain ⟨n, hn⟩ := foldPages_as_items ctx htm pages
    (initExState (scanSnapshot scanOk db0) db0)
  rw [hn]
  set X := (streamItems pages).foldl (procItem ctx)
    (initExState (scanSnapshot scanOk db0) db0) with hX
  have hff : (setTotal X n).flushFailed = none := by
    show X.flushFailed = none
    rw [hX, foldItems_noFail ctx htm hfo]
    rfl
  have her : (setTotal X n).earlyReturn = false := by
    show X.earlyReturn = false
    rw [hX, (foldItems_fields ctx htm (streamItems pages) _).2.1]
    rfl
  by_cases hb : (setTotal X n).buffer = []
  · rw [extractTail_emptyBuffer ctx _ hff her hb htm]
    exact ⟨rfl, hff⟩
  · rw [extractTail_flush_ok ctx _ hff her hb htm (hfo _)]
    rw [applyFlush_ok ctx _ (hfo _)]
    exact ⟨rfl, hff⟩

/-! ## Identifier resolution and validation helpers for concrete claims -/

lemma resolve_contacts_empty (item : Item)
    (h1 : truthy (getField item "EntityID") = false) :
    resolveEntityId "contacts" item = "" := by
  cases hE : getField item "EntityID" with
  | none => simp [resolveEntityId, hE]
  | some s =>
    have hs : s = "" := by
      rw [hE] at h1
      simpa [truthy] using h1
    simp [resolveEntityId, hE, hs]

lemma validate_contacts_contactId (item : Item)
    (h2 : truthy (getField item "ContactId") = true) :
    validate_record item "contacts" = [] := by
  simp [validate_record, idFieldMap, h2]

lemma resolve_policies_fallback (item : Item)
    (h1 : truthy (getField item "EntityID") = false)
    (h2 : truthy (getField item "PolicyId") = true) :
    resolveEntityId "policies" item = (getField item "PolicyId").getD "" := by
  simp [resolveEntityId, h1, h2]

/-- A one-page one-item run, expressed through a single item step. -/
lemma single_item_run (ctx : ExCtx) (scanOk : Bool) (item : Item)
    (db0 : DbSession)
    (hreg : ctx.resource = "contacts" ∨ ctx.resource = "policies")
    (htm : ctx.testMode = false) :
    ∃ n, extract_resource ctx scanOk [.list [item]] db0 =
      extractTail ctx
        (setTotal (procItem ctx (initExState (scanSnapshot scanOk db0) db0) item) n) := by
  rw [extract_resource_eq ctx scanOk _ db0 hreg htm, foldState_def]
  obtain ⟨n, hn⟩ := foldPages_as_items ctx htm [ApiData.list [item]]
    (initExState (scanSnapshot scanOk db0) db0)
  have hs : streamItems [ApiData.list [item]] = [item] := by
    simp [streamItems, extractPageItems]
  rw [hs] at hn
  simp only [List.foldl_cons, List.foldl_nil] at hn
  refine ⟨n, ?_⟩
  simp only [List.foldl_cons, List.foldl_nil]
  rw [hn]

/-- C10. Identifier resolution and validation disagree for contacts: a
contact item with a truthy `ContactId` but no truthy `EntityID` passes
validation, yet resolves to the empty identifier (the `PolicyId` fallback
exists only for policies), so the extraction drops it as unidentifiable —
count 0, one skip, nothing written. -/
theorem C10_contacts_resolution_validation_mismatch :
    (∀ item : Item,
      truthy (getField item "EntityID") = false →
      truthy (getField item "ContactId") = true →
      validate_record item "contacts" = [] ∧ resolveEntityId "contacts" item = "") ∧
    (∀ item : Item,
      truthy (getField item "EntityID") = false →
      truthy (getField item "PolicyId") = true →
      resolveEntityId "policies" item = (getField item "PolicyId").getD "") ∧
    (∀ (item : Item) (bs : Nat) (bid : String) (f : Nat → Bool)
      (lim : Option Nat) (scanOk : Bool) (db0 : DbSession),
      truthy (getField item "EntityID") = false →
      truthy (getField item "ContactId") = true →
      (extract_resource ⟨"contacts", bs, bid, f, false, lim⟩ scanOk
          [.list [item]] db0).1 = .count 0 ∧
      (extract_resource ⟨"contacts", bs, bid, f, false, lim⟩ scanOk
          [.list [item]] db0).2.session = db0 ∧
      (extract_resource ⟨"contacts", bs, bid, f, false, lim⟩ scanOk
          [.list [item]] db0).2.stSkipped = 1) := by
  refine ⟨?_, ?_, ?_⟩
  · intro item h1 h2
    exact ⟨validate_contacts_contactId item h2, resolve_contacts_empty item h1⟩
  · intro item h1 h2
    exact resolve_policies_fallback item h1 h2
  · intro item bs bid f lim scanOk db0 h1 h2
    set ctx : ExCtx := ⟨"contacts", bs, bid, f, false, lim⟩ with hctx
    obtain ⟨n, hrun⟩ := single_item_run ctx scanOk item db0 (Or.inl rfl) rfl
    set st0 := initExState (scanSnapshot scanOk db0) db0 with hst0
    have hh0 : st0.halted = false := rfl
    have hid : resolveEntityId ctx.resource item = "" :=
      resolve_contacts_empty item h1
    rw [procItem_emptyId ctx st0 item hh0 hid] at hrun
    rw [extractTail_emptyBuffer ctx _ rfl rfl rfl rfl] at hrun
    rw [hrun]
    exact ⟨rfl, rfl, rfl⟩

/-- C9. A failed step-1 scan is swallowed: the run proceeds with an empty
existing-identifier set and completes normally (given working flushes), and
a record whose `source_id` is already in staging is then written again —
whereas the same run with a working scan skips it. -/
theorem C9_scan_failure_degrades_dedup :
    (∀ (ctx : ExCtx) (pages : List ApiData) (db0 : DbSession),
      ctx.resource = "contacts" ∨ ctx.resource = "policies" →
      ctx.testMode = false →
      (∀ k, ctx.flushOk k = true) →
      (extract_resource ctx false pages db0).1 =
        .count (extract_resource ctx false pages db0).2.recordsProcessed ∧
      (extract_resource ctx false pages db0).2.flushFailed = none) ∧
    (∀ (item : Item) (x : String) (bs : Nat) (bid : String) (f : Nat → Bool)
      (lim : Option Nat) (resource : String) (db0 : DbSession),
      resource = "contacts" ∨ resource = "policies" →
      resolveEntityId resource item = x →
      x ≠ "" →
      validate_record item resource = [] →
      x ∈ sourceIds db0.committed →
      db0.pending = [] →
      (∀ k, f k = true) →
      ((extract_resource ⟨resource, bs, bid, f, false, lim⟩ false
          [.list [item]] db0).1 = .count 1 ∧
       (extract_resource ⟨resource, bs, bid, f, false, lim⟩ false
          [.list [item]] db0).2.session.committed =
         db0.committed ++ [{ source_id := x, raw_data := item, etl_batch_id := bid }] ∧
       (extract_resource ⟨resource, bs, bid, f, false, lim⟩ true
          [.list [item]] db0).1 = .count 0 ∧
       (extract_resource ⟨resource, bs, bid, f, false, lim⟩ true
          [.list [item]] db0).2.session = db0)) := by
  constructor
  · intro ctx pages db0 hreg htm hfo
    exact extract_noCrash ctx false pages db0 hreg htm hfo
  · intro item x bs bid f lim resource db0 hreg hres hx hv hmem hpend hfo
    set ctx : ExCtx := ⟨resource, bs, bid, f, false, lim⟩ with hctx
    have htm : ctx.testMode = false := rfl
    have hres1 : resolveEntityId ctx.resource item = x := hres
    have hne : resolveEntityId ctx.resource item ≠ "" := by rw [hres1]; exact hx
    have hAB : (extract_resource ctx false [.list [item]] db0).1 = .count 1 ∧
        (extract_resource ctx false [.list [item]] db0).2.session.committed =
          db0.committed ++
            [{ source_id := x, raw_data := item, etl_batch_id := bid }] := by
      obtain ⟨n, hrun⟩ := single_item_run ctx false item db0 hreg htm
      set st0 := initExState (scanSnapshot false db0) db0 with hst0
      have hh0 : st0.halted = false := rfl
      have hnd : resolveEntityId ctx.resource item ∉ st0.processedIds := by
        rw [hres1]; exact List.not_mem_nil x
      have hexm : resolveEntityId ctx.resource item ∉ st0.existing := by
        rw [hres1]; exact List.not_mem_nil x
      have hstep := procItem_write ctx st0 item hh0 htm hne hnd hexm hv
      rw [hres1] at hstep
      rw [hstep] at hrun
      set st1 : ExState :=
        { st0 with processedIds := st0.processedIds ++ [x] } with hst1
      rcases bufferRecord_shape ctx st1 x item with hb | hb <;> rw [hb] at hrun
      · have hbuf : (setTotal (pushRaw ctx st1 x item) n).buffer ≠ [] := by
          simp [pushRaw, setTotal]
        rw [extractTail_flush_ok ctx _ rfl rfl hbuf htm (hfo _)] at hrun
        rw [applyFlush_ok ctx _ (hfo _)] at hrun
        rw [hrun]
        refine ⟨rfl, ?_⟩
        simp [pushRaw, newRaw, hpend, hst1, hst0, initExState, setTotal]
      · rw [applyFlush_ok ctx _ (hfo _)] at hrun
        rw [extractTail_emptyBuffer ctx _ rfl rfl rfl htm] at hrun
        rw [hrun]
        refine ⟨rfl, ?_⟩
        simp [pushRaw, newRaw, hpend, hst1, hst0, initExState, setTotal]
    have hCD : (extract_resource ctx true [.list [item]] db0).1 = .count 0 ∧
        (extract_resource ctx true [.list [item]] db0).2.session = db0 := by
      obtain ⟨m, hrun2⟩ := single_item_run ctx true item db0 hreg htm
      set st0t := initExState (scanSnapshot true db0) db0 with hst0t
      have hh0t : st0t.halted = false := rfl
      have hndt : resolveEntityId ctx.resource item ∉ st0t.processedIds := by
        rw [hres1]; exact List.not_mem_nil x
      have hmemt : resolveEntityId ctx.resource item ∈ st0t.existing := by
        rw [hres1]; exact hmem
      have hstep2 := procItem_existingSkip ctx st0t item hh0t hne hndt hmemt
      rw [hstep2] at hrun2
      rw [extractTail_emptyBuffer ctx _ rfl rfl rfl htm] at hrun2
      rw [hrun2]
      exact ⟨rfl, rfl⟩
    exact ⟨hAB.1, hAB.2, hCD.1, hCD.2⟩

/-! ## At most one written record per identifier -/

lemma scanSnapshot_sub (scanOk : Bool) (db0 : DbSession) :
    ∀ y ∈ scanSnapshot scanOk db0, y ∈ sourceIds db0.committed := by
  intro y hy
  cases scanOk with
  | true => simpa [scanSnapshot] using hy
  | false => simp [scanSnapshot] at hy

/-- Origin of in-run dedup entries: everything in the set after a fold was
there before or is the resolved identifier of some consumed item. -/
lemma foldItems_pid_from (ctx : ExCtx) (htm : ctx.testMode = false)
    (L : List Item) : ∀ (st : ExState) (y : String),
    y ∈ (L.foldl (procItem ctx) st).processedIds →
    y ∈ st.processedIds ∨ ∃ b ∈ L, resolveEntityId ctx.resource b = y := by
  induction L with
  | nil =>
    intro st y hy
    exact Or.inl hy
  | cons a L ih =>
    intro st y hy
    simp only [List.foldl_cons] at hy
    rcases ih (procItem ctx st a) y hy with hmem | ⟨b, hb, hbeq⟩
    · have hpid : (procItem ctx st a).processedIds = st.processedIds ∨
          (procItem ctx st a).processedIds =
            st.processedIds ++ [resolveEntityId ctx.resource a] := by
        rcases procItem_shape ctx st a htm with h | h | h | h | ⟨-, -, -, -, -, h⟩ <;>
          rw [h]
        · exact Or.inl rfl
        · exact Or.inl rfl
        · exact Or.inr rfl
        · exact Or.inr rfl
        · exact Or.inr (bufferRecord_fields ctx _ _ a).2.1
      rcases hpid with hp | hp
      · rw [hp] at hmem
        exact Or.inl hmem
      · rw [hp] at hmem
        rcases List.mem_append.mp hmem with h1 | h1
        · exact Or.inl h1
        · have : y = resolveEntityId ctx.resource a := by simpa using h1
          exact Or.inr ⟨a, List.mem_cons_self a L, this.symm⟩
    · exact Or.inr ⟨b, List.mem_cons_of_mem a hb, hbeq⟩

/-- Invariant: the rows added beyond `base` carry pairwise distinct
identifiers, all of which are in the in-run dedup set. -/
lemma foldItems_nodup (ctx : ExCtx) (htm : ctx.testMode = false)
    (L : List Item) : ∀ (st : ExState) (base newr : List RawRecord),
    st.session.pending = [] →
    cb st = base ++ newr →
    (sourceIds newr).Nodup →
    (∀ y ∈ sourceIds newr, y ∈ st.processedIds) →
    ∃ newr2, cb (L.foldl (procItem ctx) st) = base ++ newr2 ∧
      (sourceIds newr2).Nodup ∧
      (∀ y ∈ sourceIds newr2, y ∈ (L.foldl (procItem ctx) st).processedIds) := by
  induction L with
  | nil =>
    intro st base newr _ hdec hnd hsub
    exact ⟨newr, hdec, hnd, hsub⟩
  | cons a L ih =>
    intro st base newr hpend hdec hnd hsub
    simp only [List.foldl_cons]
    rcases procItem_shape ctx st a htm with h | h | h | h | ⟨hh, hne, hnd1, hex1, hv1, h⟩
    · rw [h]
      exact ih st base newr hpend hdec hnd hsub
    · rw [h]
      exact ih _ base newr hpend hdec hnd hsub
    · rw [h]
      refine ih _ base newr hpend hdec hnd ?_
      intro y hy
      exact List.mem_append_left _ (hsub y hy)
    · rw [h]
      refine ih _ base newr hpend hdec hnd ?_
      intro y hy
      exact List.mem_append_left _ (hsub y hy)
    · rw [h]
      have hbf := bufferRecord_fields ctx
        { st with processedIds := st.processedIds ++ [resolveEntityId ctx.resource a] }
        (resolveEntityId ctx.resource a) a
      refine ih _ base (newr ++ [newRaw ctx (resolveEntityId ctx.resource a) a])
        (hbf.2.2.2.2.2.2.2.1 hpend) ?_ ?_ ?_
      · rw [hbf.2.2.2.2.2.2.2.2 hpend]
        show cb st ++ _ = _
        rw [hdec, List.append_assoc]
      · rw [sourceIds_append]
        rw [List.nodup_append]
        refine ⟨hnd, by simp [sourceIds, newRaw], ?_⟩
        intro y hy hy2
        have : y = resolveEntityId ctx.resource a := by
          simpa [sourceIds, newRaw] using hy2
        exact hnd1 (this ▸ hsub y hy)
      · intro y hy
        rw [hbf.2.1]
        rw [sourceIds_append] at hy
        rcases List.mem_append.mp hy with h1 | h1
        · exact List.mem_append_left _ (hsub y h1)
        · have : y = resolveEntityId ctx.resource a := by
            simpa [sourceIds, newRaw] using h1
          rw [this]
          exact List.mem_append_right _ (by simp)

/-- C2 (amended). Dedup within a page-stream: a run writes at most one
RawRecord per identifier (the new rows' identifiers are pairwise distinct);
it writes exactly one for an identifier whose first occurrence in the
stream is valid and not already staged; the in-run set is consulted before
the staging set, and a match in either is a plain skip, never an error. -/
theorem C2_dedup_within_stream :
    (∀ (ctx : ExCtx) (scanOk : Bool) (pages : List ApiData) (db0 : DbSession),
      ctx.resource = "contacts" ∨ ctx.resource = "policies" →
      ctx.testMode = false →
      db0.pending = [] →
      (extract_resource ctx scanOk pages db0).2.flushFailed = none →
      ∃ newr, (extract_resource ctx scanOk pages db0).2.session.committed =
          db0.committed ++ newr ∧ (sourceIds newr).Nodup) ∧
    (∀ (ctx : ExCtx) (scanOk : Bool) (pages : List ApiData) (db0 : DbSession)
      (id : String) (pre post : List Item) (a : Item),
      ctx.resource = "contacts" ∨ ctx.resource = "policies" →
      ctx.testMode = false →
      db0.pending = [] →
      streamItems pages = pre ++ a :: post →
      (∀ b ∈ pre, resolveEntityId ctx.resource b ≠ id) →
      resolveEntityId ctx.resource a = id →
      id ≠ "" →
      validate_record a ctx.resource = [] →
      id ∉ sourceIds db0.committed →
      (extract_resource ctx scanOk pages db0).2.flushFailed = none →
      ∃ newr, (extract_resource ctx scanOk pages db0).2.session.committed =
          db0.committed ++ newr ∧ (sourceIds newr).count id = 1) ∧
    (∀ (ctx : ExCtx) (st : ExState) (a : Item),
      st.halted = false →
      resolveEntityId ctx.resource a ≠ "" →
      resolveEntityId ctx.resource a ∈ st.processedIds →
      procItem ctx st a = st) ∧
    (∀ (ctx : ExCtx) (st : ExState) (a : Item),
      st.halted = false →
      resolveEntityId ctx.resource a ≠ "" →
      resolveEntityId ctx.resource a ∉ st.processedIds →
      resolveEntityId ctx.resource a ∈ st.existing →
      procItem ctx st a =
        { st with
          processedIds := st.processedIds ++ [resolveEntityId ctx.resource a],
          stAlready := st.stAlready + 1 }) := by
  refine ⟨?_, ?_, procItem_dup, procItem_existingSkip⟩
  · intro ctx scanOk pages db0 hreg htm hpend hnf
    obtain ⟨hfnone, hcomm, -, -⟩ :=
      extract_final ctx scanOk pages db0 hreg htm hpend hnf
    set st0 := initExState (scanSnapshot scanOk db0) db0 with hst0
    obtain ⟨n, hn⟩ := foldPages_as_items ctx htm pages st0
    rw [foldState_def] at hcomm
    rw [hn] at hcomm
    have hpend0 : st0.session.pending = [] := hpend
    obtain ⟨newr, hdec, hnodup, -⟩ := foldItems_nodup ctx htm (streamItems pages)
      st0 db0.committed [] hpend0 (by simp [cb, hst0, initExState])
      (by simp [sourceIds]) (by simp [sourceIds])
    have hcommX : (extract_resource ctx scanOk pages db0).2.session.committed =
        cb ((streamItems pages).foldl (procItem ctx) st0) := hcomm
    exact ⟨newr, by rw [hcommX, hdec], hnodup⟩
  · intro ctx scanOk pages db0 id pre post a hreg htm hpend hsplit hpre hida hne hv
      hnotdb hnf
    obtain ⟨hfnone, hcomm, -, -⟩ :=
      extract_final ctx scanOk pages db0 hreg htm hpend hnf
    set st0 := initExState (scanSnapshot scanOk db0) db0 with hst0
    obtain ⟨n, hn⟩ := foldPages_as_items ctx htm pages st0
    rw [foldState_def] at hfnone hcomm
    rw [hn] at hfnone hcomm
    set X := (streamItems pages).foldl (procItem ctx) st0 with hX
    have hXf : X.flushFailed = none := hfnone
    have hcommX : (extract_resource ctx scanOk pages db0).2.session.committed =
        cb X := hcomm
    have hpend0 : st0.session.pending = [] := hpend
    obtain ⟨newr, hdec, hnodup, -⟩ := foldItems_nodup ctx htm (streamItems pages)
      st0 db0.committed [] hpend0 (by simp [cb, hst0, initExState])
      (by simp [sourceIds]) (by simp [sourceIds])
    have hsplitX : X =
        post.foldl (procItem ctx) (procItem ctx (pre.foldl (procItem ctx) st0) a) := by
      rw [hX, hsplit]
      simp [List.foldl_append]
    set S := pre.foldl (procItem ctx) st0 with hS
    have hSpend : S.session.pending = [] :=
      (foldItems_fields ctx htm pre st0).2.2.2.1 hpend0
    have hSer : S.earlyReturn = false := by
      rw [(foldItems_fields ctx htm pre st0).2.1]
      rfl
    have hSf : S.flushFailed = none := by
      have h2 : (post.foldl (procItem ctx) (procItem ctx S a)).flushFailed = none := by
        rw [← hsplitX]
        exact hXf
      exact (procItem_fields ctx S a htm).2.2.2.2.1
        ((foldItems_fields ctx htm post _).2.2.1 h2)
    have hSh : S.halted = false := (halted_false_iff S).mpr ⟨hSf, hSer⟩
    have hSnd : resolveEntityId ctx.resource a ∉ S.processedIds := by
      rw [hida]
      intro hmem
      rcases foldItems_pid_from ctx htm pre st0 id hmem with h1 | ⟨b, hb, hbeq⟩
      · simp [hst0, initExState] at h1
      · exact hpre b hb hbeq
    have hSex : resolveEntityId ctx.resource a ∉ S.existing := by
      rw [hida, (foldItems_fields ctx htm pre st0).1]
      intro hmem
      exact hnotdb (scanSnapshot_sub scanOk db0 id hmem)
    have hmem1 : resolveEntityId ctx.resource a ∈
        sourceIds (cb (procItem ctx S a)) :=
      procItem_write_mem ctx S a hSh htm (by rw [hida]; exact hne) hSnd hSex hv hSpend
    have hmemX : id ∈ sourceIds (cb X) := by
      have hpendSa : (procItem ctx S a).session.pending = [] :=
        (procItem_fields ctx S a htm).2.2.2.2.2.1 hSpend
      obtain ⟨t, ht⟩ :=
        (foldItems_fields ctx htm post (procItem ctx S a)).2.2.2.2 hpendSa
      rw [hsplitX, ht, sourceIds_append]
      exact List.mem_append_left _ (hida ▸ hmem1)
    have hmemNew : id ∈ sourceIds newr := by
      rw [hdec, sourceIds_append] at hmemX
      rcases List.mem_append.mp hmemX with h1 | h1
      · exact absurd h1 hnotdb
      · exact h1
    refine ⟨newr, by rw [hcommX, hdec], ?_⟩
    exact List.count_eq_one_of_mem hnodup hmemNew

/-! ## Flush schedule over a stream of all-new valid items -/

/-- Sizes of the in-loop flushes produced by `n` consecutive writes starting
from a buffer of length `b`: the buffer is flushed whenever its length
reaches the batch size. -/
def expectedFlushes (batch : Nat) : Nat → Nat → List Nat
  | _, 0 => []
  | b, n + 1 =>
    if batch ≤ b + 1 then (b + 1) :: expectedFlushes batch 0 n
    else expectedFlushes batch (b + 1) n

/-- Buffer length after `n` consecutive writes starting from length `b`. -/
def bufAfter (batch : Nat) : Nat → Nat → Nat
  | b, 0 => b
  | b, n + 1 =>
    if batch ≤ b + 1 then bufAfter batch 0 n else bufAfter batch (b + 1) n

/-- Over a stream of pairwise-distinct, valid, unseen, unstaged items, every
item is written; the counters, the flush log and the final buffer length
follow the batch arithmetic. -/
lemma foldItems_fresh (ctx : ExCtx) (htm : ctx.testMode = false)
    (hfo : ∀ k, ctx.flushOk k = true) (L : List Item) :
    ∀ st : ExState,
    st.flushFailed = none → st.earlyReturn = false →
    st.buffer.length < ctx.batchSize →
    (L.map (resolveEntityId ctx.resource)).Nodup →
    (∀ a ∈ L, resolveEntityId ctx.resource a ≠ "" ∧
              resolveEntityId ctx.resource a ∉ st.processedIds ∧
              resolveEntityId ctx.resource a ∉ st.existing ∧
              validate_record a ctx.resource = []) →
    (L.foldl (procItem ctx) st).recordsProcessed = st.recordsProcessed + L.length ∧
    (L.foldl (procItem ctx) st).flushSizes =
      st.flushSizes ++ expectedFlushes ctx.batchSize st.buffer.length L.length ∧
    (L.foldl (procItem ctx) st).buffer.length =
      bufAfter ctx.batchSize st.buffer.length L.length ∧
    (L.foldl (procItem ctx) st).flushFailed = none ∧
    (L.foldl (procItem ctx) st).earlyReturn = false := by
  induction L with
  | nil =>
    intro st hff her hblt hnodup hfresh
    simp [expectedFlushes, bufAfter, hff, her]
  | cons a L ih =>
    intro st hff her hblt hnodup hfresh
    obtain ⟨hne, hnd, hex, hv⟩ := hfresh a (List.mem_cons_self a L)
    have hh : st.halted = false := (halted_false_iff st).mpr ⟨hff, her⟩
    have hnodup2 : resolveEntityId ctx.resource a ∉
        L.map (resolveEntityId ctx.resource) ∧
        (L.map (resolveEntityId ctx.resource)).Nodup := by
      rw [List.map_cons, List.nodup_cons] at hnodup
      exact hnodup
    simp only [List.foldl_cons, List.length_cons]
    rw [procItem_write ctx st a hh htm hne hnd hex hv, bufferRecord_eq]
    have hplen : (pushRaw ctx
        { st with processedIds := st.processedIds ++ [resolveEntityId ctx.resource a] }
        (resolveEntityId ctx.resource a) a).buffer.length = st.buffer.length + 1 := by
      simp [pushRaw]
    have hfreshL : ∀ b ∈ L,
        resolveEntityId ctx.resource b ≠ "" ∧
        resolveEntityId ctx.resource b ∉
          st.processedIds ++ [resolveEntityId ctx.resource a] ∧
        resolveEntityId ctx.resource b ∉ st.existing ∧
        validate_record b ctx.resource = [] := by
      intro b hb
      obtain ⟨h1, h2, h3, h4⟩ := hfresh b (List.mem_cons_of_mem a hb)
      refine ⟨h1, ?_, h3, h4⟩
      intro hmem
      rcases List.mem_append.mp hmem with hm | hm
      · exact h2 hm
      · have heq : resolveEntityId ctx.resource b = resolveEntityId ctx.resource a := by
          simpa using hm
        exact hnodup2.1 (heq ▸ List.mem_map_of_mem (resolveEntityId ctx.resource) hb)
    by_cases hfl : ctx.batchSize ≤ st.buffer.length + 1
    · rw [if_pos (by rw [hplen]; exact hfl)]
      set P := pushRaw ctx
        { st with processedIds := st.processedIds ++ [resolveEntityId ctx.resource a] }
        (resolveEntityId ctx.resource a) a with hP
      have hZ := applyFlush_ok ctx P (hfo _)
      have hZff : (applyFlush ctx P).flushFailed = none := by rw [hZ]; exact hff
      have hZer : (applyFlush ctx P).earlyReturn = false := by rw [hZ]; exact her
      have hZbuf : (applyFlush ctx P).buffer = [] := by rw [hZ]
      have hZrp : (applyFlush ctx P).recordsProcessed = st.recordsProcessed + 1 := by
        rw [hZ]; rfl
      have hPfs0 : P.flushSizes = st.flushSizes := rfl
      have hZfs : (applyFlush ctx P).flushSizes =
          st.flushSizes ++ [st.buffer.length + 1] := by
        rw [hZ]
        show P.flushSizes ++ [P.buffer.length] = _
        rw [hPfs0, hplen]
      have hZpid : (applyFlush ctx P).processedIds =
          st.processedIds ++ [resolveEntityId ctx.resource a] := by rw [hZ]; rfl
      have hZex : (applyFlush ctx P).existing = st.existing := by rw [hZ]; rfl
      have hbatchpos : 0 < ctx.batchSize := Nat.lt_of_le_of_lt (Nat.zero_le _) hblt
      obtain ⟨ih1, ih2, ih3, ih4, ih5⟩ := ih (applyFlush ctx P) hZff hZer
        (by rw [hZbuf]; exact hbatchpos) hnodup2.2
        (by rw [hZpid, hZex]; exact hfreshL)
      refine ⟨?_, ?_, ?_, ih4, ih5⟩
      · rw [ih1, hZrp]
        omega
      · rw [ih2, hZfs, hZbuf]
        simp [expectedFlushes, hfl, List.append_assoc]
      · rw [ih3, hZbuf]
        simp [bufAfter, hfl]
    · rw [if_neg (by rw [hplen]; exact hfl)]
      set P := pushRaw ctx
        { st with processedIds := st.processedIds ++ [resolveEntityId ctx.resource a] }
        (resolveEntityId ctx.resource a) a with hP
      have hPff : P.flushFailed = none := hff
      have hPer : P.earlyReturn = false := her
      have hPrp : P.recordsProcessed = st.recordsProcessed + 1 := rfl
      have hPfs : P.flushSizes = st.flushSizes := rfl
      have hPpid : P.processedIds =
          st.processedIds ++ [resolveEntityId ctx.resource a] := rfl
      have hPex : P.existing = st.existing := rfl
      have hPlt : P.buffer.length < ctx.batchSize := by
        rw [hplen]
        omega
      obtain ⟨ih1, ih2, ih3, ih4, ih5⟩ := ih P hPff hPer hPlt hnodup2.2
        (by rw [hPpid, hPex]; exact hfreshL)
      refine ⟨?_, ?_, ?_, ih4, ih5⟩
      · rw [ih1, hPrp]
        omega
      · rw [ih2, hPfs, hplen]
        simp [expectedFlushes, hfl]
      · rw [ih3, hplen]
        simp [bufAfter, hfl]

set_option maxRecDepth 40000 in
lemma expectedFlushes_1000_1500 : expectedFlushes 1000 0 1500 = [1000] := by
  decide

set_option maxRecDepth 40000 in
lemma bufAfter_1000_1500 : bufAfter 1000 0 1500 = 500 := by
  decide

/-- C6. Batch flush boundary: with batch size 1000 and a stream of exactly
1500 valid, pairwise-distinct, not-already-staged items, the flush
operation runs exactly twice — 1000 records, then the remaining 500 at end
of stream — and the returned count is 1500. -/
theorem C6_batch_flush_boundary
    (ctx : ExCtx) (scanOk : Bool) (pages : List ApiData) (db0 : DbSession)
    (hreg : ctx.resource = "contacts" ∨ ctx.resource = "policies")
    (htm : ctx.testMode = false)
    (hbs : ctx.batchSize = 1000)
    (hfo : ∀ k, ctx.flushOk k = true)
    (hpend : db0.pending = [])
    (hlen : (streamItems pages).length = 1500)
    (hnodup : ((streamItems pages).map (resolveEntityId ctx.resource)).Nodup)
    (hfresh : ∀ a ∈ streamItems pages,
      resolveEntityId ctx.resource a ≠ "" ∧
      validate_record a ctx.resource = [] ∧
      resolveEntityId ctx.resource a ∉ sourceIds db0.committed) :
    (extract_resource ctx scanOk pages db0).1 = .count 1500 ∧
    (extract_resource ctx scanOk pages db0).2.flushSizes = [1000, 500] := by
  rw [extract_resource_eq ctx scanOk pages db0 hreg htm, foldState_def]
  set st0 := initExState (scanSnapshot scanOk db0) db0 with hst0
  obtain ⟨n, hn⟩ := foldPages_as_items ctx htm pages st0
  rw [hn]
  set X := (streamItems pages).foldl (procItem ctx) st0 with hX
  obtain ⟨ih1, ih2, ih3, ih4, ih5⟩ := foldItems_fresh ctx htm hfo
    (streamItems pages) st0 rfl rfl
    (by rw [hbs]; show (0 : Nat) < 1000; omega)
    hnodup
    (by
      intro a ha
      obtain ⟨h1, h2, h3⟩ := hfresh a ha
      refine ⟨h1, ?_, ?_, h2⟩
      · show resolveEntityId ctx.resource a ∉ ([] : List String)
        exact List.not_mem_nil _
      · show resolveEntityId ctx.resource a ∉ scanSnapshot scanOk db0
        intro hmem
        exact h3 (scanSnapshot_sub scanOk db0 _ hmem))
  rw [hlen, hbs] at ih2 ih3
  have hst0buf : st0.buffer.length = 0 := rfl
  rw [hst0buf] at ih2 ih3
  rw [expectedFlushes_1000_1500] at ih2
  rw [bufAfter_1000_1500] at ih3
  have hfs : X.flushSizes = [1000] := by
    rw [ih2]
    show st0.flushSizes ++ [1000] = [1000]
    rfl
  have hbufne : (setTotal X n).buffer ≠ [] := by
    show X.buffer ≠ []
    intro hnil
    rw [hnil] at ih3
    simp at ih3
  have hff : (setTotal X n).flushFailed = none := ih4
  have her : (setTotal X n).earlyReturn = false := ih5
  rw [extractTail_flush_ok ctx _ hff her hbufne htm (hfo _)]
  rw [applyFlush_ok ctx _ (hfo _)]
  constructor
  · show ExtractResult.count X.recordsProcessed = .count 1500
    rw [ih1, hlen]
    rfl
  · show X.flushSizes ++ [X.buffer.length] = [1000, 500]
    rw [hfs, ih3]
    rfl

/-! ## Client lemmas: refresh behaviour and the retry wrapper -/

/-- The token state `_get_new_token` leaves behind. -/
def freshTok (net : NetCtx) : TokState :=
  { accessToken := some net.newToken, expiresAt := some (net.now + net.expiresIn) }

lemma refresh_nRequests (now : Int) (tok : String) (e : Int) (c : ClientRun) :
    (refresh_token now tok e c).nRequests = c.nRequests := by
  unfold refresh_token
  split <;> rfl

lemma refresh_noop (net : NetCtx) (c : ClientRun)
    (h : needsRefresh net.now c.tok = false) :
    refresh_token net.now net.newToken net.expiresIn c = c := by
  simp [refresh_token, h]

lemma refresh_fetch (net : NetCtx) (c : ClientRun)
    (h : needsRefresh net.now c.tok = true) :
    refresh_token net.now net.newToken net.expiresIn c =
      { c with tok := freshTok net, nTokenFetches := c.nTokenFetches + 1 } := by
  simp [refresh_token, h, freshTok]

lemma is401_true (r : HttpResp) (h : is401 r = true) : r = .err 401 := by
  cases r with
  | ok d => simp [is401] at h
  | err code =>
    simp [is401] at h
    rw [h]
  | netFail => simp [is401] at h

lemma is401_false (code : Nat) (h : code ≠ 401) : is401 (.err code) = false := by
  simp [is401, h]

/-- The retry decorator under an attempt that always fails the same way
with a fixed number of requests per attempt: every attempt is retried until
the stop, and the last failure is re-raised. -/
lemma get_resource_retry_allfail (net : NetCtx) (e : AttemptOut) (d : Nat)
    (hne : ∀ x, e ≠ .success x)
    (hstep : ∀ c' : ClientRun, (get_resource_attempt net c').1 = e ∧
      (get_resource_attempt net c').2.nRequests = c'.nRequests + d) :
    ∀ (fuel : Nat) (c : ClientRun),
    (get_resource_retry net (fuel + 1) c).1 = e ∧
    (get_resource_retry net (fuel + 1) c).2.nRequests =
      c.nRequests + d * (fuel + 1) := by
  intro fuel
  induction fuel with
  | zero =>
    intro c
    obtain ⟨h1, h2⟩ := hstep c
    rcases hp : get_resource_attempt net c with ⟨fst, snd⟩
    rw [hp] at h1 h2
    simp only at h1 h2
    subst h1
    cases fst with
    | success x => exact absurd rfl (hne x)
    | httpErr code =>
      simp only [get_resource_retry, hp]
      exact ⟨by trivial, by simpa using h2⟩
    | netErr =>
      simp only [get_resource_retry, hp]
      exact ⟨by trivial, by simpa using h2⟩
  | succ fuel ih =>
    intro c
    obtain ⟨h1, h2⟩ := hstep c
    rcases hp : get_resource_attempt net c with ⟨fst, snd⟩
    rw [hp] at h1 h2
    simp only at h1 h2
    subst h1
    cases fst with
    | success x => exact absurd rfl (hne x)
    | httpErr code =>
      simp only [get_resource_retry, hp]
      obtain ⟨ih1, ih2⟩ := ih snd
      simp only [get_resource_retry] at ih1 ih2
      refine ⟨ih1, ?_⟩
      rw [ih2, h2]
      ring
    | netErr =>
      simp only [get_resource_retry, hp]
      obtain ⟨ih1, ih2⟩ := ih snd
      simp only [get_resource_retry] at ih1 ih2
      refine ⟨ih1, ?_⟩
      rw [ih2, h2]
      ring

lemma attempt_const_err (net : NetCtx) (code : Nat) (c : ClientRun)
    (hup : ∀ k, net.upstream k = .err code) (h401 : code ≠ 401) :
    (get_resource_attempt net c).1 = .httpErr code ∧
    (get_resource_attempt net c).2.nRequests = c.nRequests + 1 := by
  have hbeq : (code == 401) = false := by simpa using h401
  simp [get_resource_attempt, doGet, hup, is401, hbeq, refresh_nRequests]

lemma attempt_const_netFail (net : NetCtx) (c : ClientRun)
    (hup : ∀ k, net.upstream k = .netFail) :
    (get_resource_attempt net c).1 = .netErr ∧
    (get_resource_attempt net c).2.nRequests = c.nRequests + 1 := by
  simp [get_resource_attempt, doGet, hup, refresh_nRequests]

lemma attempt_const_401 (net : NetCtx) (c : ClientRun)
    (hup : ∀ k, net.upstream k = .err 401) :
    (get_resource_attempt net c).1 = .httpErr 401 ∧
    (get_resource_attempt net c).2.nRequests = c.nRequests + 2 := by
  simp [get_resource_attempt, doGet, hup, is401, refresh_nRequests]

/-- C4 (amended). Retry taxonomy as implemented: the decorator retries the
whole fetch on any exception, so a client error other than 401 — 404
included — is retried exactly like 429, a 5xx or a network failure: 3
attempts total, one request each (two for constant 401, whose in-line
handler retries the page once per attempt), after which the last error
propagates. -/
theorem C4_every_error_is_retried :
    (∀ (net : NetCtx) (code : Nat) (c : ClientRun),
      (∀ k, net.upstream k = .err code) → code ≠ 401 →
      (get_resource net c).1 = .httpErr code ∧
      (get_resource net c).2.nRequests = c.nRequests + 3) ∧
    (∀ (net : NetCtx) (c : ClientRun),
      (∀ k, net.upstream k = .netFail) →
      (get_resource net c).1 = .netErr ∧
      (get_resource net c).2.nRequests = c.nRequests + 3) ∧
    (∀ (net : NetCtx) (c : ClientRun),
      (∀ k, net.upstream k = .err 401) →
      (get_resource net c).1 = .httpErr 401 ∧
      (get_resource net c).2.nRequests = c.nRequests + 6) := by
  refine ⟨?_, ?_, ?_⟩
  · intro net code c hup h401
    have h := get_resource_retry_allfail net (.httpErr code) 1 (by intro x; simp)
      (fun c' => attempt_const_err net code c' hup h401) 2 c
    simpa [get_resource] using h
  · intro net c hup
    have h := get_resource_retry_allfail net .netErr 1 (by intro x; simp)
      (fun c' => attempt_const_netFail net c' hup) 2 c
    simpa [get_resource] using h
  · intro net c hup
    have h := get_resource_retry_allfail net (.httpErr 401) 2 (by intro x; simp)
      (fun c' => attempt_const_401 net c' hup) 2 c
    simpa [get_resource] using h

lemma freshTok_noRefresh (net : NetCtx) (hnt : net.newToken ≠ "")
    (hexp : 300 < net.expiresIn) :
    needsRefresh net.now
      { accessToken := some net.newToken,
        expiresAt := some (net.now + net.expiresIn) } = false := by
  simp [needsRefresh, truthy, hnt]
  omega

/-- C3 (amended). 401 handling as implemented: a 401 answer triggers exactly
one retried request for the page within the attempt (two requests in all),
and one call of the conditional refresh routine — a new token is fetched
only when none is held or the locally tracked expiry is within the 5-minute
margin; with a locally valid token nothing is fetched and the token is
unchanged, and with a stale token exactly one fresh token (of useful
lifetime) is fetched. -/
theorem C3_401_conditional_refresh :
    (∀ (net : NetCtx) (c : ClientRun),
      is401 (net.upstream c.nRequests) = true →
      (get_resource_attempt net c).2.nRequests = c.nRequests + 2) ∧
    (∀ (net : NetCtx) (c : ClientRun),
      is401 (net.upstream c.nRequests) = true →
      needsRefresh net.now c.tok = false →
      (get_resource_attempt net c).2.nTokenFetches = c.nTokenFetches ∧
      (get_resource_attempt net c).2.tok = c.tok) ∧
    (∀ (net : NetCtx) (c : ClientRun),
      is401 (net.upstream c.nRequests) = true →
      needsRefresh net.now c.tok = true →
      net.newToken ≠ "" → 300 < net.expiresIn →
      (get_resource_attempt net c).2.nTokenFetches = c.nTokenFetches + 1) := by
  refine ⟨?_, ?_, ?_⟩
  · intro net c h401
    have hr : net.upstream c.nRequests = .err 401 := is401_true _ h401
    by_cases h1 : needsRefresh net.now c.tok = true <;>
      by_cases h2 : needsRefresh net.now
        { accessToken := some net.newToken,
          expiresAt := some (net.now + net.expiresIn) } = true <;>
      cases hu2 : net.upstream (c.nRequests + 1) <;>
        simp [get_resource_attempt, doGet, refresh_token, h1, h2, hr, hu2, is401]
  · intro net c h401 hre
    have hr : net.upstream c.nRequests = .err 401 := is401_true _ h401
    cases hu2 : net.upstream (c.nRequests + 1) <;>
      simp [get_resource_attempt, doGet, refresh_token, hre, hr, hu2, is401]
  · intro net c h401 hre hnt hexp
    have hr : net.upstream c.nRequests = .err 401 := is401_true _ h401
    have h2 := freshTok_noRefresh net hnt hexp
    cases hu2 : net.upstream (c.nRequests + 1) <;>
      simp [get_resource_attempt, doGet, refresh_token, hre, h2, hr, hu2, is401]

/-! ## Pagination invariants -/

/-- The full break condition of one loop iteration: no items, a later page
reporting `TotalItems = 0` after a total was recorded, or the reported page
number having reached the reported page total. -/
def pgBreakCond (recorded : Option Nat) (d : ApiData) : Bool :=
  !hasData d || totalItemsZero recorded d || lastPageReached d

lemma pgRecordTotal_fields (st : PgState) (data : ApiData) :
    (pgRecordTotal st data).requested = st.requested ∧
    (pgRecordTotal st data).yielded = st.yielded ∧
    (pgRecordTotal st data).page = st.page ∧
    (pgRecordTotal st data).terminated = st.terminated := by
  cases data with
  | dict d =>
    by_cases h : st.totalItems.isNone && d.TotalItems.isSome
    · simp [pgRecordTotal, h]
    · simp only [pgRecordTotal]
      rw [if_neg h]
      exact ⟨rfl, rfl, rfl, rfl⟩
  | list l => exact ⟨rfl, rfl, rfl, rfl⟩
  | other => exact ⟨rfl, rfl, rfl, rfl⟩

/-- Loop invariant of the pagination walk: pages are requested in
page-number order starting at 1, and every yielded page has items. -/
def PgInv (st : PgState) : Prop :=
  st.requested.map (fun p => p.pageNumber) = List.range' 1 st.requested.length ∧
  (st.terminated = false → st.page = st.requested.length + 1) ∧
  (∀ d ∈ st.yielded, hasData d = true)

lemma build_page_params_pageNumber (resource : String) (page pageSize : Nat)
    (lmStart lmEnd : Option String) (nowIso : String) :
    (build_page_params resource page pageSize lmStart lmEnd nowIso).pageNumber =
      page := by
  unfold build_page_params
  split
  · split <;> rfl
  · rfl

lemma pg_step_inv (ctx : PgCtx) (st : PgState) (h : PgInv st) :
    PgInv (pg_step ctx st) := by
  obtain ⟨h1, h2, h3⟩ := h
  by_cases ht : st.terminated = true
  · simpa [pg_step, ht] using ⟨h1, h2, h3⟩
  · replace ht : st.terminated = false := by simpa using ht
    have hpage : st.page = st.requested.length + 1 := h2 ht
    have hreq : ∀ P : PageParams, P.pageNumber = st.page →
        (st.requested ++ [P]).map (fun p => p.pageNumber) =
        List.range' 1 (st.requested ++ [P]).length := by
      intro P hP
      rw [List.map_append, h1, List.length_append]
      have hmap : List.map (fun p => p.pageNumber) [P] = [st.requested.length + 1] := by
        simp [hP, hpage]
      rw [hmap]
      have hlen : st.requested.length + [P].length = st.requested.length + 1 := by
        simp
      rw [hlen, List.range'_concat]
      simp [Nat.add_comm]
    simp only [pg_step]
    rw [if_neg (by simp [ht])]
    set params := build_page_params ctx.resource st.page ctx.pageSize
      ctx.lmStart ctx.lmEnd ctx.nowIso with hparams
    have hpn : params.pageNumber = st.page := by
      rw [hparams]
      exact build_page_params_pageNumber _ _ _ _ _ _
    set data := ctx.fetch params with hdata
    set st1 : PgState := { st with requested := st.requested ++ [params] } with hst1
    by_cases hbk : (!hasData data || totalItemsZero st1.totalItems data) = true
    · rw [if_pos hbk]
      refine ⟨hreq params hpn, ?_, ?_⟩
      · intro hcc
        simp at hcc
      · exact h3
    · rw [if_neg hbk]
      obtain ⟨hhd, -⟩ : hasData data = true ∧
          totalItemsZero st1.totalItems data = false := by
        simpa using hbk
      have hrt := pgRecordTotal_fields st1 data
      have hy : ∀ d ∈ (pgRecordTotal st1 data).yielded ++ [data],
          hasData d = true := by
        intro d hd
        rcases List.mem_append.mp hd with hm | hm
        · rw [hrt.2.1] at hm
          exact h3 d hm
        · have hdd : d = data := by simpa using hm
          rw [hdd]
          exact hhd
      have hreq2 : (pgRecordTotal st1 data).requested.map (fun p => p.pageNumber) =
          List.range' 1 (pgRecordTotal st1 data).requested.length := by
        rw [hrt.1]
        exact hreq params hpn
      by_cases hlast : lastPageReached data = true
      · rw [if_pos hlast]
        exact ⟨hreq2, by intro hcc; simp at hcc, hy⟩
      · rw [if_neg hlast]
        refine ⟨hreq2, ?_, hy⟩
        intro _
        show (pgRecordTotal st1 data).page + 1 =
          (pgRecordTotal st1 data).requested.length + 1
        rw [hrt.2.2.1, hrt.1]
        show st.page + 1 = (st.requested ++ [params]).length + 1
        rw [hpage, List.length_append]
        simp

lemma pg_step_terminated (ctx : PgCtx) (st : PgState)
    (h : (pg_step ctx st).terminated = true) :
    st.terminated = true ∨
    pgBreakCond st.totalItems (ctx.fetch (build_page_params ctx.resource st.page
      ctx.pageSize ctx.lmStart ctx.lmEnd ctx.nowIso)) = true := by
  by_cases ht : st.terminated = true
  · exact Or.inl ht
  · right
    replace ht : st.terminated = false := by simpa using ht
    simp only [pg_step] at h
    rw [if_neg (by simp [ht])] at h
    set params := build_page_params ctx.resource st.page ctx.pageSize
      ctx.lmStart ctx.lmEnd ctx.nowIso with hparams
    set data := ctx.fetch params with hdata
    set st1 : PgState := { st with requested := st.requested ++ [params] } with hst1
    by_cases hbk : (!hasData data || totalItemsZero st1.totalItems data) = true
    · have hbk2 : (!hasData data || totalItemsZero st.totalItems data) = true := hbk
      simp [pgBreakCond, Bool.or_eq_true_iff] at hbk2 ⊢
      tauto
    · rw [if_neg hbk] at h
      by_cases hlast : lastPageReached data = true
      · simp [pgBreakCond, Bool.or_eq_true_iff]
        tauto
      · rw [if_neg hlast] at h
        have hrt := pgRecordTotal_fields st1 data
        have hterm : (pgRecordTotal st1 data).terminated = false := by
          rw [hrt.2.2.2]
          exact ht
        simp only [hterm] at h
        exact absurd h (by simp)

lemma get_paginated_resource_inv (ctx : PgCtx) :
    ∀ fuel, PgInv (get_paginated_resource ctx fuel) := by
  intro fuel
  induction fuel with
  | zero =>
    refine ⟨rfl, fun _ => rfl, ?_⟩
    intro d hd
    simp [get_paginated_resource, pgInit] at hd
  | succ fuel ih =>
    exact pg_step_inv ctx _ ih

/-- An upstream that answers every page request with the same non-empty
bare-list body and no pagination metadata. -/
def constListFetchCtx : PgCtx :=
  { resource := "Contacts", lmStart := none, lmEnd := none, nowIso := "NOW",
    pageSize := 100, fetch := fun _ => .list [[("EntityID", "A")]] }

lemma constList_step (st : PgState) (h : st.terminated = false) :
    (pg_step constListFetchCtx st).terminated = false := by
  simp only [pg_step]
  rw [if_neg (by simp [h])]
  simp [constListFetchCtx, hasData, totalItemsZero, lastPageReached,
    pgRecordTotal, h]

lemma constList_never_terminates :
    ∀ n, (get_paginated_resource constListFetchCtx n).terminated = false := by
  intro n
  induction n with
  | zero => rfl
  | succ n ih =>
    show (pg_step constListFetchCtx (get_paginated_resource constListFetchCtx n)).terminated = false
    exact constList_step _ ih

/-- C5 counterexample. The claim that the yielded sequence is finite for
every upstream fails: against a constant non-empty bare-list upstream with
no pagination metadata, no finite number of loop iterations ever reaches a
`break`. -/
theorem C5_counterexample_infinite_upstream :
    ¬ ∃ n, (get_paginated_resource constListFetchCtx n).terminated = true := by
  rintro ⟨n, hn⟩
  rw [constList_never_terminates n] at hn
  exact Bool.false_ne_true hn

/-- C5 (amended). Pagination order and termination as implemented: pages are
requested in increasing page-number order starting at 1 and only pages
reporting items are yielded; the walk breaks exactly on one of the coded
conditions (a page without items, a later page reporting `TotalItems = 0`
after a total was recorded, or truthy `PageNumber ≥ PagesTotal`); an
upstream that never meets any of them — a constant non-empty bare list —
is walked forever. -/
theorem C5_pagination_order_and_termination :
    (∀ (ctx : PgCtx) (fuel : Nat),
      (get_paginated_resource ctx fuel).requested.map (fun p => p.pageNumber) =
        List.range' 1 (get_paginated_resource ctx fuel).requested.length ∧
      (∀ d ∈ (get_paginated_resource ctx fuel).yielded, hasData d = true)) ∧
    (∀ (ctx : PgCtx) (st : PgState),
      (pg_step ctx st).terminated = true →
      st.terminated = true ∨
      pgBreakCond st.totalItems (ctx.fetch (build_page_params ctx.resource
        st.page ctx.pageSize ctx.lmStart ctx.lmEnd ctx.nowIso)) = true) ∧
    (∀ n, (get_paginated_resource constListFetchCtx n).terminated = false) := by
  refine ⟨?_, pg_step_terminated, constList_never_terminates⟩
  intro ctx fuel
  obtain ⟨h1, -, h3⟩ := get_paginated_resource_inv ctx fuel
  exact ⟨h1, h3⟩

/-- C8 counterexample. For a non-`LastModifiedCreated` path with only a
start bound supplied, the end bound is NOT defaulted to the current time:
no end parameter is sent at all (neither `endDate` nor `lastModifiedEnd`). -/
theorem C8_counterexample_no_end_default :
    containsLMC "Contacts" = false ∧
    build_page_params "Contacts" 1 100 (some "2024-01-01T00:00:00") none "NOW" =
      { pageNumber := 1, pageSize := 100, startDate := none, endDate := none,
        lastModifiedStart := some "2024-01-01T00:00:00",
        lastModifiedEnd := none } := by
  decide

/-- C8 (amended). Filter-parameter dialect selection as implemented: the
dialect is chosen from the endpoint path; on a `LastModifiedCreated` path a
truthy start bound sends `startDate` plus `endDate` defaulted to the
current time when the end bound is falsy, while a falsy start bound
suppresses both date parameters (even if an end bound was given); on every
other path `lastModifiedStart` and `lastModifiedEnd` are each sent exactly
when truthy — a missing end bound is omitted, never defaulted. -/
theorem C8_filter_dialect_selection :
    (∀ (resource : String) (page pageSize : Nat) (lmStart lmEnd : Option String)
      (nowIso : String),
      containsLMC resource = true →
      (truthy lmStart = true →
        build_page_params resource page pageSize lmStart lmEnd nowIso =
          { pageNumber := page, pageSize := pageSize, startDate := lmStart,
            endDate := some (pyOr lmEnd nowIso), lastModifiedStart := none,
            lastModifiedEnd := none }) ∧
      (truthy lmStart = false →
        build_page_params resource page pageSize lmStart lmEnd nowIso =
          { pageNumber := page, pageSize := pageSize, startDate := none,
            endDate := none, lastModifiedStart := none,
            lastModifiedEnd := none })) ∧
    (∀ (resource : String) (page pageSize : Nat) (lmStart lmEnd : Option String)
      (nowIso : String),
      containsLMC resource = false →
      build_page_params resource page pageSize lmStart lmEnd nowIso =
        { pageNumber := page, pageSize := pageSize, startDate := none,
          endDate := none,
          lastModifiedStart := if truthy lmStart then lmStart else none,
          lastModifiedEnd := if truthy lmEnd then lmEnd else none }) := by
  constructor
  · intro resource page pageSize lmStart lmEnd nowIso hlmc
    constructor
    · intro hs
      simp [build_page_params, hlmc, hs]
    · intro hs
      simp [build_page_params, hlmc, hs]
  · intro resource page pageSize lmStart lmEnd nowIso hlmc
    simp [build_page_params, hlmc]

/-! ## Concrete scenarios for counterexamples and witnesses -/

def emptyDb : DbSession := { committed := [], pending := [] }

def cexPolInvalid : Item := [("EntityID", "X")]

def cexPolValid : Item :=
  [("EntityID", "X"), ("PolicyNumber", "PN-1"), ("Status", "Active")]

def cexPolCtx : ExCtx :=
  { resource := "policies", batchSize := 1000, batchId := "b0",
    flushOk := fun _ => true, testMode := false, limit := none }

/-- C2 counterexample. Two items of one stream resolve to the same
identifier `X`, yet zero RawRecords are written for it — the first
occurrence fails validation after `X` has already been added to the in-run
set, so the later valid occurrence is suppressed too; the claim's "exactly
one" fails. -/
theorem C2_counterexample_zero_for_shared_id :
    resolveEntityId "policies" cexPolInvalid = resolveEntityId "policies" cexPolValid ∧
    (extract_resource cexPolCtx true [.list [cexPolInvalid, cexPolValid]]
        emptyDb).1 = .count 0 ∧
    (extract_resource cexPolCtx true [.list [cexPolInvalid, cexPolValid]]
        emptyDb).2.session.committed = [] := by
  decide

def cexClient : ClientRun :=
  { tok := { accessToken := some "held-token", expiresAt := some 10000 },
    nRequests := 0, nTokenFetches := 0 }

def cex401Net : NetCtx :=
  { now := 0, newToken := "fresh-token", expiresIn := 3600,
    upstream := fun _ => .err 401 }

def cex404Net : NetCtx :=
  { now := 0, newToken := "fresh-token", expiresIn := 3600,
    upstream := fun _ => .err 404 }

/-- C3 counterexample. A page request answered 401 while the held token is
locally unexpired: the request is retried once (two GETs), but no token is
fetched at all — `nTokenFetches = 0`, not the claimed one forced fetch, and
the held token is unchanged. -/
theorem C3_counterexample_no_forced_fetch :
    get_resource_attempt cex401Net cexClient =
      (.httpErr 401,
        { tok := { accessToken := some "held-token", expiresAt := some 10000 },
          nRequests := 2, nTokenFetches := 0 }) := by
  decide

/-- C4 counterexample. A fetch answered 404 on every request is retried:
the call issues 3 requests before the 404 propagates, not the claimed
immediate propagation with no retry. -/
theorem C4_counterexample_404_retried :
    get_resource cex404Net cexClient =
      (.httpErr 404,
        { tok := { accessToken := some "held-token", expiresAt := some 10000 },
          nRequests := 3, nTokenFetches := 0 }) := by
  decide

/-! ## Witness scenarios: each claim instantiated at a concrete input -/

def w1Pages : List ApiData := [.list [[("EntityID", "A1")]]]

/-- C1 witness: a concrete contacts run over one one-item page, re-run on
the session the first run produced, writes nothing and leaves the session
unchanged. -/
theorem C1_witness :
    (extract_resource ⟨"contacts", 1000, "b2", fun _ => true, false, none⟩ true
        w1Pages
        (extract_resource ⟨"contacts", 1000, "b1", fun _ => true, false, none⟩
          true w1Pages emptyDb).2.session).1 = .count 0 ∧
    (extract_resource ⟨"contacts", 1000, "b2", fun _ => true, false, none⟩ true
        w1Pages
        (extract_resource ⟨"contacts", 1000, "b1", fun _ => true, false, none⟩
          true w1Pages emptyDb).2.session).2.session =
      (extract_resource ⟨"contacts", 1000, "b1", fun _ => true, false, none⟩
        true w1Pages emptyDb).2.session :=
  C1_extract_idempotent "contacts" 1000 1000 "b1" "b2" (fun _ => true)
    (fun _ => true) none none true w1Pages emptyDb (Or.inl rfl) rfl (by decide)

/-- C2 witness: a valid, fresh policies item is written exactly once. -/
theorem C2_witness :
    ∃ newr, (extract_resource cexPolCtx true [.list [cexPolValid]]
        emptyDb).2.session.committed = emptyDb.committed ++ newr ∧
      (sourceIds newr).count "X" = 1 :=
  C2_dedup_within_stream.2.1 cexPolCtx true [.list [cexPolValid]] emptyDb "X"
    [] [] cexPolValid (Or.inr rfl) rfl rfl rfl (by decide) (by decide)
    (by decide) (by decide) (by decide) (by decide)

/-- C3 witness: on the concrete 401 scenario with a locally valid token,
the attempt fetches no token and keeps the held token. -/
theorem C3_witness :
    (get_resource_attempt cex401Net cexClient).2.nTokenFetches =
      cexClient.nTokenFetches ∧
    (get_resource_attempt cex401Net cexClient).2.tok = cexClient.tok :=
  C3_401_conditional_refresh.2.1 cex401Net cexClient (by decide) (by decide)

/-- C4 witness: the concrete constant-404 upstream yields three requests
and a propagated 404. -/
theorem C4_witness :
    (get_resource cex404Net cexClient).1 = .httpErr 404 ∧
    (get_resource cex404Net cexClient).2.nRequests = cexClient.nRequests + 3 :=
  C4_every_error_is_retried.1 cex404Net 404 cexClient (fun _ => rfl) (by decide)

def w5Ctx : PgCtx :=
  { resource := "Contacts", lmStart := none, lmEnd := none, nowIso := "NOW",
    pageSize := 100, fetch := fun _ => .list [] }

/-- C5 witness: a first iteration that terminates does so because its
fetched page satisfies the break condition (here: an empty page). -/
theorem C5_witness :
    pgInit.terminated = true ∨
    pgBreakCond pgInit.totalItems (w5Ctx.fetch (build_page_params w5Ctx.resource
      pgInit.page w5Ctx.pageSize w5Ctx.lmStart w5Ctx.lmEnd w5Ctx.nowIso)) =
      true :=
  C5_pagination_order_and_termination.2.1 w5Ctx pgInit (by decide)

def cexFailCtx : ExCtx :=
  { resource := "contacts", batchSize := 1, batchId := "b7",
    flushOk := fun _ => false, testMode := false, limit := none }

/-- C7 witness: a run whose only flush fails reports that flush's failure,
carrying the source_id of the buffered record. -/
theorem C7_witness :
    (extract_resource cexFailCtx true [.list [[("EntityID", "A1")]]]
        emptyDb).1 = .errFlush { recordIds := ["A1"] } :=
  C7_flush_atomicity.2.2.2.2 cexFailCtx true [.list [[("EntityID", "A1")]]]
    emptyDb { recordIds := ["A1"] } (by decide)

/-- C8 witness: on the LastModifiedCreated dialect with a start bound and
no end bound, endDate is sent, defaulted to the current time. -/
theorem C8_witness :
    build_page_params "Contacts/LastModifiedCreated" 1 100 (some "S") none
      "NOW" =
      { pageNumber := 1, pageSize := 100, startDate := some "S",
        endDate := some (pyOr none "NOW"), lastModifiedStart := none,
        lastModifiedEnd := none } :=
  (C8_filter_dialect_selection.1 "Contacts/LastModifiedCreated" 1 100
    (some "S") none "NOW" (by decide)).1 (by decide)

def w9Item : Item := [("EntityID", "X1")]

def w9Db : DbSession :=
  { committed := [⟨"X1", w9Item, "old"⟩], pending := [] }

/-- C9 witness: with the scan failed, an item already staged under batch
"old" is written again; with a working scan it is skipped. -/
theorem C9_witness :
    (extract_resource ⟨"contacts", 1000, "b9", fun _ => true, false, none⟩
        false [.list [w9Item]] w9Db).1 = .count 1 ∧
    (extract_resource ⟨"contacts", 1000, "b9", fun _ => true, false, none⟩
        false [.list [w9Item]] w9Db).2.session.committed =
      w9Db.committed ++ [⟨"X1", w9Item, "b9"⟩] ∧
    (extract_resource ⟨"contacts", 1000, "b9", fun _ => true, false, none⟩
        true [.list [w9Item]] w9Db).1 = .count 0 ∧
    (extract_resource ⟨"contacts", 1000, "b9", fun _ => true, false, none⟩
        true [.list [w9Item]] w9Db).2.session = w9Db :=
  C9_scan_failure_degrades_dedup.2 w9Item "X1" 1000 "b9" (fun _ => true) none
    "contacts" w9Db (Or.inl rfl) (by decide) (by decide) (by decide)
    (by decide) rfl (fun _ => rfl)

def w10Item : Item := [("ContactId", "C9")]

/-- C10 witness: a ContactId-only item passes validation yet resolves to
the empty identifier, so the run writes nothing and counts one skip. -/
theorem C10_witness :
    (extract_resource ⟨"contacts", 1000, "b10", fun _ => true, false, none⟩
        true [.list [w10Item]] emptyDb).1 = .count 0 ∧
    (extract_resource ⟨"contacts", 1000, "b10", fun _ => true, false, none⟩
        true [.list [w10Item]] emptyDb).2.session = emptyDb ∧
    (extract_resource ⟨"contacts", 1000, "b10", fun _ => true, false, none⟩
        true [.list [w10Item]] emptyDb).2.stSkipped = 1 :=
  C10_contacts_resolution_validation_mismatch.2.2 w10Item 1000 "b10"
    (fun _ => true) none true emptyDb (by decide) (by decide)

def c6Id (i : Nat) : String := String.mk ('c' :: List.replicate i 'x')

def c6Item (i : Nat) : Item := [("EntityID", c6Id i)]

def c6Pages : List ApiData := [.list ((List.range 1500).map c6Item)]

def c6Ctx : ExCtx :=
  { resource := "contacts", batchSize := 1000, batchId := "b6",
    flushOk := fun _ => true, testMode := false, limit := none }

lemma c6Id_ne (i : Nat) : c6Id i ≠ "" := by
  intro h
  have h2 := congrArg String.length h
  simp [c6Id, String.length] at h2

lemma c6Id_inj : Function.Injective c6Id := by
  intro i j h
  have h2 : 'c' :: List.replicate i 'x' = 'c' :: List.replicate j 'x' :=
    congrArg String.data h
  simp only [List.cons.injEq, true_and] at h2
  simpa using congrArg List.length h2

lemma c6_resolve (i : Nat) : resolveEntityId "contacts" (c6Item i) = c6Id i :=
  rfl

lemma c6_valid (i : Nat) : validate_record (c6Item i) "contacts" = [] := by
  have hne : (c6Id i == "") = false := by
    cases h : c6Id i == ""
    · rfl
    · exact absurd (eq_of_beq h) (c6Id_ne i)
  simp [validate_record, idFieldMap, c6Item, getField, truthy, hne]

lemma c6_stream : streamItems c6Pages = (List.range 1500).map c6Item := by
  simp [streamItems, c6Pages, extractPageItems]

lemma c6_len : (streamItems c6Pages).length = 1500 := by
  simp [c6_stream]

lemma c6_nodup :
    ((streamItems c6Pages).map (resolveEntityId "contacts")).Nodup := by
  rw [c6_stream, List.map_map]
  have he : (resolveEntityId "contacts") ∘ c6Item = c6Id := funext c6_resolve
  rw [he]
  exact (List.nodup_range 1500).map c6Id_inj

lemma c6_fresh : ∀ a ∈ streamItems c6Pages,
    resolveEntityId "contacts" a ≠ "" ∧
    validate_record a "contacts" = [] ∧
    resolveEntityId "contacts" a ∉ sourceIds emptyDb.committed := by
  rw [c6_stream]
  intro a ha
  obtain ⟨i, -, rfl⟩ := List.mem_map.mp ha
  refine ⟨?_, c6_valid i, ?_⟩
  · rw [c6_resolve i]; exact c6Id_ne i
  · simp [sourceIds, emptyDb]

/-- C6 witness: a concrete 1500-item contacts stream of distinct valid
items yields 1500 written records in flushes of 1000 then 500. -/
theorem C6_witness :
    (extract_resource c6Ctx true c6Pages emptyDb).1 = .count 1500 ∧
    (extract_resource c6Ctx true c6Pages emptyDb).2.flushSizes =
      [1000, 500] :=
  C6_batch_flush_boundary c6Ctx true c6Pages emptyDb (Or.inl rfl) rfl rfl
    (fun _ => rfl) rfl c6_len c6_nodup c6_fresh
